import Mathlib

/-!
# Point-particle mechanics sandbox: embedding of `src/main.cpp`

The simulation core of `main.cpp` is translated function by function.  The C++ `float`
and `double` values are read as elements of one ordered field `K` (casts between the two
are the identity), so every definition below is an ordinary computable function that is
polymorphic in `K`.  Theorems that do not depend on `std::sqrt` or `std::sin` are stated
for every ordered field and every choice of the two routines; the others take `K` to be
the real numbers and the routines to be `Real.sqrt` and `Real.sin`.

Exact arithmetic is one reading of the source.  Where a property is an exact equality or
a sharp inequality that rounding can break, the routines it is about are translated a
second time, in namespace `B32`, with every `float` operation rounded to binary32
(type `Flotante`); the property is then evaluated there at concrete states.

* `std::vector<Vec2>` is a `List`.
* Mutation of `Simulacion&` is state passing: each routine returns the new record.
* The `while` loop of the frame update is a recursive function whose measure is
  `120 - iter`.
* Console output and drawing are not modelled.
-/

namespace Goldstein

/-- The `<cmath>` routines used by the simulation (`std::sqrt`, `std::sin`). -/
structure CMath (K : Type) where
  sqrt : K → K
  sin : K → K

/-- Mirror of `struct Vec2` (lines 15-30). -/
structure Vec2 (K : Type) where
  x : K
  y : K

namespace Vec2

variable {K : Type} [LinearOrderedField K]

/-- Mirror of `Vec2::operator+`. -/
def add (a o : Vec2 K) : Vec2 K := ⟨a.x + o.x, a.y + o.y⟩

/-- Mirror of `Vec2::operator-`. -/
def sub (a o : Vec2 K) : Vec2 K := ⟨a.x - o.x, a.y - o.y⟩

/-- Mirror of `Vec2::operator*(float)`. -/
def mul (a : Vec2 K) (s : K) : Vec2 K := ⟨a.x * s, a.y * s⟩

/-- Mirror of `Vec2::operator/(float)`. -/
def div (a : Vec2 K) (s : K) : Vec2 K := ⟨a.x / s, a.y / s⟩

end Vec2

section Modelo

variable {K : Type} [LinearOrderedField K]

/-- Mirror of `dot` (line 32). -/
def dot (a b : Vec2 K) : K := a.x * b.x + a.y * b.y

/-- Mirror of `norm2` (line 33). -/
def norm2 (a : Vec2 K) : K := dot a a

/-- Mirror of `norm` (line 34). -/
def norm (cm : CMath K) (a : Vec2 K) : K := cm.sqrt (norm2 a)

end Modelo

/-- Mirror of `enum class Escena` (lines 41-51). -/
inductive Escena
  | Libre
  | FuerzaConstante
  | Oscilador
  | InversaCuadrado
  | RestriccionCirculo
  | OsciladorRigidezTiempo
  | NoetherRotacionAreal
  | NoetherTraslacionPx
  deriving DecidableEq, Repr

/-- Numeric value of each enumerator of `Escena`. -/
def Escena.codigo : Escena → Int
  | .Libre => 1
  | .FuerzaConstante => 2
  | .Oscilador => 3
  | .InversaCuadrado => 4
  | .RestriccionCirculo => 5
  | .OsciladorRigidezTiempo => 6
  | .NoetherRotacionAreal => 7
  | .NoetherTraslacionPx => 8

/-- The cast `(Escena)(n)` of line 466.  The caller guards `1 ≤ n ≤ 8`; outside that range the
C++ value is not one of the enumerators and no `case` of `fuerza` matches it, which is how
`Libre` behaves. -/
def Escena.deCodigo (n : Int) : Escena :=
  if n = 2 then .FuerzaConstante
  else if n = 3 then .Oscilador
  else if n = 4 then .InversaCuadrado
  else if n = 5 then .RestriccionCirculo
  else if n = 6 then .OsciladorRigidezTiempo
  else if n = 7 then .NoetherRotacionAreal
  else if n = 8 then .NoetherTraslacionPx
  else .Libre

/-- Mirror of `enum class Integrador` (lines 53-56). -/
inductive Integrador
  | EulerSemimplicito
  | RK4
  deriving DecidableEq, Repr

/-- Mirror of `struct Estado` (lines 58-61). -/
structure Estado (K : Type) where
  r : Vec2 K
  v : Vec2 K

/-- Mirror of `struct Parametros` (lines 63-72). -/
structure Parametros (K : Type) where
  m : K
  g : K
  k : K
  radio : K
  amortiguamiento : K
  eps_k : K
  omega_k : K

/-- Mirror of `struct Simulacion` (lines 74-106). -/
structure Simulacion (K : Type) where
  escena : Escena
  integrador : Integrador
  p : Parametros K
  s : Estado K
  a : Vec2 K
  dt : K
  pausado : Bool
  estela : List (Vec2 K)
  t_sim : K
  r_previa : Vec2 K
  area_acumulada : K
  reloj_area : K
  reloj_imprime : K
  contador_frames : Int

section Modelo

variable {K : Type} [LinearOrderedField K]

/-- Default member initialisers of `Parametros` (lines 64-71). -/
def Parametros.porDefecto : Parametros K :=
  { m := 1, g := 3 / 2, k := 2, radio := 5 / 4, amortiguamiento := 3 / 20,
    eps_k := 7 / 20, omega_k := 5 / 2 }

/-- Default member initialisers of `Simulacion` (lines 75-93). -/
def Simulacion.porDefecto : Simulacion K :=
  { escena := .FuerzaConstante, integrador := .EulerSemimplicito,
    p := Parametros.porDefecto, s := ⟨⟨0, 0⟩, ⟨0, 0⟩⟩, a := ⟨0, 0⟩, dt := 1 / 120,
    pausado := false, estela := [], t_sim := 0, r_previa := ⟨0, 0⟩, area_acumulada := 0,
    reloj_area := 0, reloj_imprime := 0, contador_frames := 0 }

/-- Mirror of `Simulacion::reiniciar` (lines 95-105). -/
def Simulacion.reiniciar (sim : Simulacion K) : Simulacion K :=
  let r0 : Vec2 K := ⟨-(4 / 5), 3 / 5⟩
  { sim with
    s := ⟨r0, ⟨6 / 5, 1 / 5⟩⟩
    a := ⟨0, 0⟩
    estela := []
    t_sim := 0
    r_previa := r0
    area_acumulada := 0
    reloj_area := 0 }

/-- Mirror of `rigidez_tiempo` (lines 108-110). -/
def rigidez_tiempo (cm : CMath K) (t : K) (p : Parametros K) : K :=
  p.k * (1 + p.eps_k * cm.sin (p.omega_k * t))

/-- Mirror of `fuerza` (lines 112-162): `F` starts at zero and each `case` adds to it. -/
def fuerza (cm : CMath K) (s : Estado K) (escena : Escena) (p : Parametros K) (t : K) :
    Vec2 K :=
  let F : Vec2 K := ⟨0, 0⟩
  match escena with
  | .Libre => F
  | .FuerzaConstante =>
    let F : Vec2 K := ⟨F.x, F.y + -p.m * p.g⟩
    F.add (s.v.mul (-p.amortiguamiento))
  | .Oscilador =>
    let F := F.add (s.r.mul (-p.k))
    F.add (s.v.mul (-p.amortiguamiento))
  | .InversaCuadrado =>
    let r2 := norm2 s.r
    let r := cm.sqrt r2
    let eps : K := 1 / 10000
    let denom := max (r2 * r) eps
    F.add (s.r.mul (-p.k / denom))
  | .RestriccionCirculo => F.add (s.r.mul (-p.k))
  | .OsciladorRigidezTiempo =>
    let kt := rigidez_tiempo cm t p
    F.add (s.r.mul (-kt))
  | .NoetherRotacionAreal =>
    let r2 := norm2 s.r
    let r := cm.sqrt r2
    let eps : K := 1 / 10000
    let denom := max (r2 * r) eps
    F.add (s.r.mul (-p.k / denom))
  | .NoetherTraslacionPx => ⟨F.x, F.y + -p.m * p.g⟩

/-- Mirror of `energia_potencial` (lines 164-193). -/
def energia_potencial (cm : CMath K) (s : Estado K) (escena : Escena) (p : Parametros K)
    (t : K) : K :=
  match escena with
  | .Libre => 0
  | .FuerzaConstante => p.m * p.g * s.r.y
  | .Oscilador => 1 / 2 * p.k * norm2 s.r
  | .InversaCuadrado =>
    let r := max (norm cm s.r) (1 / 10000)
    (-p.k / r)
  | .RestriccionCirculo => 1 / 2 * p.k * norm2 s.r
  | .OsciladorRigidezTiempo =>
    let kt := rigidez_tiempo cm t p
    1 / 2 * kt * norm2 s.r
  | .NoetherRotacionAreal =>
    let r := max (norm cm s.r) (1 / 10000)
    (-p.k / r)
  | .NoetherTraslacionPx => p.m * p.g * s.r.y

/-- Mirror of `aplicar_restriccion_circulo` (lines 195-208). -/
def aplicar_restriccion_circulo (cm : CMath K) (s : Estado K) (p : Parametros K) : Estado K :=
  let r := norm cm s.r
  if r < 1 / 1000000 then
    ⟨⟨p.radio, 0⟩, ⟨0, 0⟩⟩
  else
    let n := s.r.div r
    let r' := n.mul p.radio
    let v_rad := dot s.v n
    ⟨r', s.v.sub (n.mul v_rad)⟩

/-- Mirror of `derivadas` (lines 210-214). -/
def derivadas (cm : CMath K) (s : Estado K) (escena : Escena) (p : Parametros K) (t : K) :
    Estado K :=
  let F := fuerza cm s escena p t
  let a := F.div p.m
  ⟨s.v, a⟩

/-- Mirror of `suma` (lines 216-218). -/
def suma (a b : Estado K) : Estado K := ⟨a.r.add b.r, a.v.add b.v⟩

/-- Mirror of `escala` (lines 220-222). -/
def escala (a : Estado K) (s : K) : Estado K := ⟨a.r.mul s, a.v.mul s⟩

/-- Mirror of `paso_euler_semimplicito` (lines 224-235). -/
def paso_euler_semimplicito (cm : CMath K) (sim : Simulacion K) : Simulacion K :=
  let F := fuerza cm sim.s sim.escena sim.p sim.t_sim
  let a := F.div sim.p.m
  let v := sim.s.v.add (a.mul sim.dt)
  let r := sim.s.r.add (v.mul sim.dt)
  let s : Estado K := ⟨r, v⟩
  let s := if sim.escena = .RestriccionCirculo then aplicar_restriccion_circulo cm s sim.p else s
  { sim with a := a, s := s, t_sim := sim.t_sim + sim.dt }

/-- Mirror of `paso_rk4` (lines 237-258). -/
def paso_rk4 (cm : CMath K) (sim : Simulacion K) : Simulacion K :=
  let t0 := sim.t_sim
  let k1 := derivadas cm sim.s sim.escena sim.p t0
  let k2 := derivadas cm (suma sim.s (escala k1 (sim.dt * (1 / 2)))) sim.escena sim.p
    (t0 + sim.dt * (1 / 2))
  let k3 := derivadas cm (suma sim.s (escala k2 (sim.dt * (1 / 2)))) sim.escena sim.p
    (t0 + sim.dt * (1 / 2))
  let k4 := derivadas cm (suma sim.s (escala k3 sim.dt)) sim.escena sim.p (t0 + sim.dt)
  let inc := suma (suma k1 (escala k2 2)) (suma (escala k3 2) k4)
  let s : Estado K :=
    ⟨sim.s.r.add (inc.r.mul (sim.dt / 6)), sim.s.v.add (inc.v.mul (sim.dt / 6))⟩
  let F := fuerza cm s sim.escena sim.p (t0 + sim.dt)
  let a := F.div sim.p.m
  if sim.escena = .RestriccionCirculo then
    let s := aplicar_restriccion_circulo cm s sim.p
    let F2 := fuerza cm s sim.escena sim.p (t0 + sim.dt)
    { sim with s := s, a := F2.div sim.p.m, t_sim := sim.t_sim + sim.dt }
  else
    { sim with s := s, a := a, t_sim := sim.t_sim + sim.dt }

/-- Mirror of `actualizar_estela` (lines 369-375): `push_back`, then erase the oldest
`size - 900` entries when the size exceeds 900. -/
def actualizar_estela (sim : Simulacion K) : Simulacion K :=
  let estela := sim.estela ++ [sim.s.r]
  let max_puntos : Nat := 900
  if estela.length > max_puntos then
    { sim with estela := estela.drop (estela.length - max_puntos) }
  else
    { sim with estela := estela }

/-- Kinetic energy `T` of `imprimir_estado_si_toca` (line 386). -/
def energia_cinetica (sim : Simulacion K) : K := 1 / 2 * sim.p.m * norm2 sim.s.v

/-- Total energy `E = T + V` of `imprimir_estado_si_toca` (lines 386-388). -/
def energia_total (cm : CMath K) (sim : Simulacion K) : K :=
  energia_cinetica sim + energia_potencial cm sim.s sim.escena sim.p sim.t_sim

/-- Angular momentum `Lz` of `imprimir_estado_si_toca` (line 390). -/
def momento_angular (sim : Simulacion K) : K :=
  sim.p.m * (sim.s.r.x * sim.s.v.y - sim.s.r.y * sim.s.v.x)

/-- Linear momentum `px` of `imprimir_estado_si_toca` (line 392). -/
def momento_px (sim : Simulacion K) : K := sim.p.m * sim.s.v.x

/-- Ideal areal velocity `vel_areolar_ideal` of `imprimir_estado_si_toca` (line 402). -/
def vel_areolar_ideal (sim : Simulacion K) : K := momento_angular sim / (2 * sim.p.m)

end Modelo

/-! ### Key codes (values of the GLFW header) -/

def GLFW_KEY_SPACE : Int := 32
def GLFW_KEY_0 : Int := 48
def GLFW_KEY_1 : Int := 49
def GLFW_KEY_8 : Int := 56
def GLFW_KEY_H : Int := 72
def GLFW_KEY_I : Int := 73
def GLFW_KEY_R : Int := 82
def GLFW_KEY_RIGHT : Int := 262
def GLFW_KEY_LEFT : Int := 263
def GLFW_KEY_DOWN : Int := 264
def GLFW_KEY_UP : Int := 265

section Modelo

variable {K : Type} [LinearOrderedField K]

/-- Mirror of `aplicar_cambios_por_tecla` (lines 464-518): the `if` statements run in
sequence on the same record. -/
def aplicar_cambios_por_tecla (sim : Simulacion K) (key : Int) : Simulacion K :=
  let sim :=
    if GLFW_KEY_1 ≤ key ∧ key ≤ GLFW_KEY_8 then
      let sim := { sim with escena := Escena.deCodigo (key - GLFW_KEY_0) }
      let sim := sim.reiniciar
      let sim := if sim.escena = .NoetherTraslacionPx then
        { sim with p := { sim.p with amortiguamiento := 0 } } else sim
      let sim := if sim.escena = .NoetherRotacionAreal then
        { sim with p := { sim.p with amortiguamiento := 0 } } else sim
      let sim := if sim.escena = .OsciladorRigidezTiempo then
        { sim with p := { sim.p with amortiguamiento := 0 } } else sim
      sim
    else sim
  let sim :=
    if key = GLFW_KEY_I then
      { sim with integrador :=
          if sim.integrador = .EulerSemimplicito then .RK4 else .EulerSemimplicito }
    else sim
  let sim := if key = GLFW_KEY_R then sim.reiniciar else sim
  let sim := if key = GLFW_KEY_SPACE then { sim with pausado := !sim.pausado } else sim
  let sim :=
    if key = GLFW_KEY_UP then
      let dt := sim.dt * (11 / 10)
      { sim with dt := min dt (1 / 15) }
    else sim
  let sim :=
    if key = GLFW_KEY_DOWN then
      let dt := sim.dt * (9 / 10)
      { sim with dt := max dt (1 / 600) }
    else sim
  let sim :=
    if key = GLFW_KEY_RIGHT then
      let k := sim.p.k * (11 / 10)
      { sim with p := { sim.p with k := min k 50 } }
    else sim
  let sim :=
    if key = GLFW_KEY_LEFT then
      let k := sim.p.k * (9 / 10)
      { sim with p := { sim.p with k := max k (1 / 50) } }
    else sim
  sim

/-- The integrator dispatch of `main` (lines 577-578). -/
def avanzar (cm : CMath K) (sim : Simulacion K) : Simulacion K :=
  if sim.integrador = .EulerSemimplicito then paso_euler_semimplicito cm sim
  else paso_rk4 cm sim

/-- Body of the substep loop of `main` (lines 574-588) for a substep of size `h`:
store `h` in `sim.dt`, run the selected integrator, accumulate the swept area for the
areal scene, record the position in the trail. -/
def cuerpo_subpaso (cm : CMath K) (h : K) (sim : Simulacion K) : Simulacion K :=
  let sim := { sim with dt := h }
  let sim := avanzar cm sim
  let sim :=
    if sim.escena = .NoetherRotacionAreal then
      let r0 := sim.r_previa
      let r1 := sim.s.r
      let cruz := r0.x * r1.y - r0.y * r1.x
      { sim with area_acumulada := sim.area_acumulada + 1 / 2 * |cruz|, r_previa := r1 }
    else sim
  actualizar_estela sim

/-- The substep loop of `main` (lines 573-591): `while (acumulado > 0.0 && iter < 120)`.
Returns the values of `acumulado`, `iter` and `sim` when the loop exits. -/
def bucle_subpasos (cm : CMath K) (paso : K) (acumulado : K) (iter : Nat)
    (sim : Simulacion K) : K × Nat × Simulacion K :=
  if acumulado > 0 ∧ iter < 120 then
    let h := min acumulado paso
    bucle_subpasos cm paso (acumulado - h) (iter + 1) (cuerpo_subpaso cm h sim)
  else
    (acumulado, iter, sim)
termination_by 120 - iter
decreasing_by omega

/-- The simulation part of one frame of `main` (lines 569-592): when not paused, run the
substep loop with `acumulado = dt_real`, `paso = sim.dt`, `iter = 0`. -/
def actualizar_frame (cm : CMath K) (dt_real : K) (sim : Simulacion K) : Simulacion K :=
  if !sim.pausado then
    (bucle_subpasos cm sim.dt dt_real 0 sim).2.2
  else sim

/-- A run of integrator steps: each entry of `cs` chooses the integrator and the step size
of one call, as the key `I` and the substep loop do between calls. -/
def pasos (cm : CMath K) (cs : List (Integrador × K)) (sim : Simulacion K) : Simulacion K :=
  cs.foldl (fun s c => avanzar cm { s with integrador := c.1, dt := c.2 }) sim

/-- Twice the modified energy that one semi-implicit Euler step of the undamped oscillator
conserves exactly: `m|v|² + k|r|² - dt·k·(r·v)`.  Used only to state the energy bound. -/
def energia_modificada (sim : Simulacion K) : K :=
  sim.p.m * norm2 sim.s.v + sim.p.k * norm2 sim.s.r - sim.dt * sim.p.k * dot sim.s.r sim.s.v

/-- The simulation object at the start of `main` (lines 549-550): default-constructed,
then `reiniciar()`. -/
def simInicial : Simulacion K := Simulacion.porDefecto.reiniciar

/-- An undamped oscillator state the program reaches: key `6` (which zeroes the damping)
followed by key `3`. -/
def simOscilador : Simulacion K :=
  aplicar_cambios_por_tecla (aplicar_cambios_por_tecla simInicial 54) 51

/-- A run of substeps of the frame loop with the given substep sizes. -/
def subpasos (cm : CMath K) (hs : List K) (sim : Simulacion K) : Simulacion K :=
  hs.foldl (fun s h => cuerpo_subpaso cm h s) sim

/-- The sizes `h` of the substeps the loop of `main` takes, in order: the same loop
skeleton as `bucle_subpasos`, collecting `h = min(acumulado, paso)` of each iteration. -/
def tamanos_subpasos (paso : K) (acumulado : K) (iter : Nat) : List K :=
  if acumulado > 0 ∧ iter < 120 then
    let h := min acumulado paso
    h :: tamanos_subpasos paso (acumulado - h) (iter + 1)
  else
    []
termination_by 120 - iter
decreasing_by omega

/-- A run of calls of `actualizar_estela`, the particle being at the positions `ps` in turn. -/
def registrar (ps : List (Vec2 K)) (sim : Simulacion K) : Simulacion K :=
  ps.foldl (fun s p => actualizar_estela { s with s := { s.s with r := p } }) sim

/-- Clamping of `x` into the interval `[lo, hi]`. -/
def acotar (lo hi x : K) : K := max lo (min x hi)

/-- The areal-velocity scene as the program enters it: key `7` on the initial simulation. -/
def simAreal : Simulacion K := aplicar_cambios_por_tecla simInicial 55

/-- State changes of `imprimir_estado_si_toca` (lines 385-462): the print clock, and for
the areal scene the tumbling window of the swept area.  The printing is not modelled. -/
def imprimir_estado_si_toca (sim : Simulacion K) (t_actual : K) : Simulacion K :=
  let sim := if sim.reloj_imprime = 0 then { sim with reloj_imprime := t_actual } else sim
  let dt := t_actual - sim.reloj_imprime
  if dt < 1 then sim
  else if sim.escena = .NoetherRotacionAreal then
    let sim := if sim.reloj_area = 0 then { sim with reloj_area := t_actual } else sim
    { sim with area_acumulada := 0, reloj_area := t_actual, reloj_imprime := t_actual }
  else
    { sim with reloj_imprime := t_actual }

/-- What the main loop does to the simulation: a key press delivered by
`callback_teclado` (line 527), or the update of one frame (lines 569-594) with wall-clock
delta `dt_real` at wall-clock time `t_actual`. -/
inductive Evento (K : Type)
  | tecla (key : Int)
  | frame (dt_real t_actual : K)

/-- Effect of one event on the simulation. -/
def aplicar_evento (cm : CMath K) (sim : Simulacion K) : Evento K → Simulacion K
  | .tecla key => aplicar_cambios_por_tecla sim key
  | .frame dt_real t_actual =>
    imprimir_estado_si_toca (actualizar_frame cm dt_real sim) t_actual

/-- Effect of a sequence of events, in order. -/
def ejecutar (cm : CMath K) (evs : List (Evento K)) (sim : Simulacion K) : Simulacion K :=
  evs.foldl (aplicar_evento cm) sim

/-- Coefficient `c = 1 - (hω)²/2 + (hω)⁴/24` of the RK4 update of the oscillator. -/
def rk4_c (h w : K) : K := 1 - (h * w) ^ 2 / 2 + (h * w) ^ 4 / 24

/-- Coefficient `s = h - h³ω²/6` of the RK4 update of the oscillator. -/
def rk4_s (h w : K) : K := h - h ^ 3 * w ^ 2 / 6

end Modelo

/-! ## The binary32 reading of the arithmetic

The definitions above read every `float` operation as an exact field operation.  The
definitions below read the same source lines as IEEE-754 binary32 arithmetic: every `+`,
`-`, `*`, `/` and `std::sqrt` on `float` is the exact result rounded to the nearest
binary32 value, ties to even.  Each operation is rounded on its own: no fused
multiply-add and no wider intermediate precision, as with SSE arithmetic on x86-64.
Values are finite; overflow to an infinity and division by zero (which the source answers
with an infinity or a NaN) are outside this model, and zero has no sign.
-/

/-- A finite floating-point value `n · 2^-149`.  Every finite binary32 value, subnormals
included, has this form; so has the binary64 sum of two such values. -/
structure Flotante where
  n : Int
  deriving DecidableEq

namespace Flotante

/-- The quotient `x / y` of two naturals rounded to the nearest integer, ties to even. -/
def rne (x y : Nat) : Nat :=
  let q := x / y
  let r := x % y
  if 2 * r < y then q else if y < 2 * r then q + 1 else q + q % 2

/-- Number of binary digits of `n`, by fuel `f`. -/
def bits_aux : Nat → Nat → Nat
  | 0, _ => 0
  | f + 1, n => if n = 0 then 0 else bits_aux f (n / 2) + 1

/-- Number of binary digits of `n`. -/
def bits (n : Nat) : Nat := bits_aux n n

/-- The non-negative rational `x / y` (in units of `2^-149`) rounded to `p` significant
binary digits on the grid of multiples of `2^-149`, to nearest, ties to even. -/
def redondear_nat (p x y : Nat) : Nat :=
  let q := x / y
  if q < 2 ^ p then rne x y
  else
    let sh := bits q - p
    rne x (y * 2 ^ sh) * 2 ^ sh

/-- The rational `a / d` (in units of `2^-149`) rounded to `p` significant digits;
rounding is symmetric in the sign. -/
def redondear (p : Nat) (a : Int) (d : Nat) : Flotante :=
  if a < 0 then ⟨-(redondear_nat p a.natAbs d : Nat)⟩
  else ⟨(redondear_nat p a.natAbs d : Nat)⟩

/-- Rounding to binary32 (24 significant digits). -/
def r32 (a : Int) (d : Nat) : Flotante := redondear 24 a d

/-- Rounding to binary64 (53 significant digits) of a value on the `2^-149` grid. -/
def r64 (a : Int) (d : Nat) : Flotante := redondear 53 a d

/-- The `float` literal nearest to the decimal `a / d` (`0.15f` is `de 3 20`). -/
def de (a : Int) (d : Nat) : Flotante := r32 (a * ((2 ^ 149 : Nat) : Int)) d

/-- The value `m · 2^-e`, `e ≤ 149`, given exactly. -/
def dosALa (m : Int) (e : Nat) : Flotante := ⟨m * ((2 ^ (149 - e) : Nat) : Int)⟩

/-- The exact value as a rational number. -/
def valor (a : Flotante) : ℚ := (a.n : ℚ) / 2 ^ 149

instance : Neg Flotante := ⟨fun a => ⟨-a.n⟩⟩

instance : Add Flotante := ⟨fun a b => r32 (a.n + b.n) 1⟩

instance : Sub Flotante := ⟨fun a b => r32 (a.n - b.n) 1⟩

instance : Mul Flotante := ⟨fun a b => r32 (a.n * b.n) (2 ^ 149)⟩

instance : Div Flotante :=
  ⟨fun a b => if b.n = 0 then ⟨0⟩
    else r32 (a.n * ((2 ^ 149 : Nat) : Int) * b.n.sign) b.n.natAbs⟩

instance : LT Flotante := ⟨fun a b => a.n < b.n⟩

instance (a b : Flotante) : Decidable (a < b) := inferInstanceAs (Decidable (a.n < b.n))

/-- Integer square root, bit by bit from bit `i - 1` down. -/
def raiz_aux (n : Nat) : Nat → Nat → Nat
  | 0, r => r
  | i + 1, r =>
    if (r + 2 ^ i) * (r + 2 ^ i) ≤ n then raiz_aux n i (r + 2 ^ i) else raiz_aux n i r

/-- Integer square root: the largest `s` with `s * s ≤ n`. -/
def raiz (n : Nat) : Nat := raiz_aux n (bits n / 2 + 1) 0

/-- The `float` overload of `std::sqrt`, correctly rounded.  When the root `s` of
`n · 2^149` is not exact, the true root lies strictly between `s` and `s + 1`, and rounding
`s + 1/2` gives the same binary32 value. -/
def sqrt (a : Flotante) : Flotante :=
  let N := a.n.toNat * 2 ^ 149
  let s := raiz N
  if s * s = N then r32 s 1 else r32 (2 * s + 1) 2

/-- The `float` instance of `std::max(a, b)`: `(a < b) ? b : a`. -/
def max (a b : Flotante) : Flotante := if a < b then b else a

/-- Addition of two `double` values of the grid: `a + b` in binary64. -/
def add64 (a b : Flotante) : Flotante := r64 (a.n + b.n) 1

/-- The expression `(float)(a * b)` with the product taken in binary64: the exact product,
in units of `2^-1074`, rounded to 53 digits and then to binary32. -/
def mul64_a_float (a b : Flotante) : Flotante :=
  r32 (redondear 53 (a.n * b.n * ((2 ^ 776 : Nat) : Int)) 1).n (2 ^ 925)

end Flotante

namespace B32

/-- Binary32 `Vec2::operator+`. -/
def vec_add (a o : Vec2 Flotante) : Vec2 Flotante := ⟨a.x + o.x, a.y + o.y⟩

/-- Binary32 `Vec2::operator-`. -/
def vec_sub (a o : Vec2 Flotante) : Vec2 Flotante := ⟨a.x - o.x, a.y - o.y⟩

/-- Binary32 `Vec2::operator*(float)`. -/
def vec_mul (a : Vec2 Flotante) (s : Flotante) : Vec2 Flotante := ⟨a.x * s, a.y * s⟩

/-- Binary32 `Vec2::operator/(float)`. -/
def vec_div (a : Vec2 Flotante) (s : Flotante) : Vec2 Flotante := ⟨a.x / s, a.y / s⟩

/-- Binary32 `dot` (line 32). -/
def dot (a b : Vec2 Flotante) : Flotante := a.x * b.x + a.y * b.y

/-- Binary32 `norm2` (line 33). -/
def norm2 (a : Vec2 Flotante) : Flotante := dot a a

/-- Binary32 `norm` (line 34). -/
def norm (a : Vec2 Flotante) : Flotante := Flotante.sqrt (norm2 a)

/-- Binary32 `rigidez_tiempo` (lines 108-110); `sn` is the `float` overload of `std::sin`,
which IEEE-754 does not pin down. -/
def rigidez_tiempo (sn : Flotante → Flotante) (t : Flotante) (p : Parametros Flotante) :
    Flotante :=
  p.k * (Flotante.de 1 1 + p.eps_k * sn (Flotante.mul64_a_float p.omega_k t))

/-- Binary32 `fuerza` (lines 112-162). -/
def fuerza (sn : Flotante → Flotante) (s : Estado Flotante) (escena : Escena)
    (p : Parametros Flotante) (t : Flotante) : Vec2 Flotante :=
  let F : Vec2 Flotante := ⟨Flotante.de 0 1, Flotante.de 0 1⟩
  match escena with
  | .Libre => F
  | .FuerzaConstante =>
    let F : Vec2 Flotante := ⟨F.x, F.y + -p.m * p.g⟩
    vec_add F (vec_mul s.v (-p.amortiguamiento))
  | .Oscilador =>
    let F := vec_add F (vec_mul s.r (-p.k))
    vec_add F (vec_mul s.v (-p.amortiguamiento))
  | .InversaCuadrado =>
    let r2 := norm2 s.r
    let r := Flotante.sqrt r2
    let eps := Flotante.de 1 10000
    let denom := Flotante.max (r2 * r) eps
    vec_add F (vec_mul s.r (-p.k / denom))
  | .RestriccionCirculo => vec_add F (vec_mul s.r (-p.k))
  | .OsciladorRigidezTiempo =>
    let kt := rigidez_tiempo sn t p
    vec_add F (vec_mul s.r (-kt))
  | .NoetherRotacionAreal =>
    let r2 := norm2 s.r
    let r := Flotante.sqrt r2
    let eps := Flotante.de 1 10000
    let denom := Flotante.max (r2 * r) eps
    vec_add F (vec_mul s.r (-p.k / denom))
  | .NoetherTraslacionPx => ⟨F.x, F.y + -p.m * p.g⟩

/-- Binary32 `energia_potencial` (lines 164-193). -/
def energia_potencial (sn : Flotante → Flotante) (s : Estado Flotante) (escena : Escena)
    (p : Parametros Flotante) (t : Flotante) : Flotante :=
  match escena with
  | .Libre => Flotante.de 0 1
  | .FuerzaConstante => p.m * p.g * s.r.y
  | .Oscilador => Flotante.de 1 2 * p.k * norm2 s.r
  | .InversaCuadrado =>
    let r := Flotante.max (norm s.r) (Flotante.de 1 10000)
    (-p.k / r)
  | .RestriccionCirculo => Flotante.de 1 2 * p.k * norm2 s.r
  | .OsciladorRigidezTiempo =>
    let kt := rigidez_tiempo sn t p
    Flotante.de 1 2 * kt * norm2 s.r
  | .NoetherRotacionAreal =>
    let r := Flotante.max (norm s.r) (Flotante.de 1 10000)
    (-p.k / r)
  | .NoetherTraslacionPx => p.m * p.g * s.r.y

/-- Binary32 `aplicar_restriccion_circulo` (lines 195-208). -/
def aplicar_restriccion_circulo (s : Estado Flotante) (p : Parametros Flotante) :
    Estado Flotante :=
  let r := norm s.r
  if r < Flotante.de 1 1000000 then
    ⟨⟨p.radio, Flotante.de 0 1⟩, ⟨Flotante.de 0 1, Flotante.de 0 1⟩⟩
  else
    let n := vec_div s.r r
    let r' := vec_mul n p.radio
    let v_rad := dot s.v n
    ⟨r', vec_sub s.v (vec_mul n v_rad)⟩

/-- Binary32 `paso_euler_semimplicito` (lines 224-235); `t_sim` is a `double`. -/
def paso_euler_semimplicito (sn : Flotante → Flotante) (sim : Simulacion Flotante) :
    Simulacion Flotante :=
  let F := fuerza sn sim.s sim.escena sim.p sim.t_sim
  let a := vec_div F sim.p.m
  let v := vec_add sim.s.v (vec_mul a sim.dt)
  let r := vec_add sim.s.r (vec_mul v sim.dt)
  let s : Estado Flotante := ⟨r, v⟩
  let s := if sim.escena = .RestriccionCirculo then aplicar_restriccion_circulo s sim.p else s
  { sim with a := a, s := s, t_sim := Flotante.add64 sim.t_sim sim.dt }

/-- Binary32 total energy `E = T + V` of `imprimir_estado_si_toca` (lines 386-388). -/
def energia_total (sn : Flotante → Flotante) (sim : Simulacion Flotante) : Flotante :=
  Flotante.de 1 2 * sim.p.m * norm2 sim.s.v
    + energia_potencial sn sim.s sim.escena sim.p sim.t_sim

/-- Binary32 angular momentum `Lz` of `imprimir_estado_si_toca` (line 390). -/
def momento_angular (sim : Simulacion Flotante) : Flotante :=
  sim.p.m * (sim.s.r.x * sim.s.v.y - sim.s.r.y * sim.s.v.x)

/-- `Parametros` with its default member initialisers (lines 64-71) as `float` literals. -/
def parametros : Parametros Flotante :=
  { m := Flotante.de 1 1, g := Flotante.de 3 2, k := Flotante.de 2 1,
    radio := Flotante.de 5 4, amortiguamiento := Flotante.de 3 20,
    eps_k := Flotante.de 7 20, omega_k := Flotante.de 5 2 }

end B32

namespace B32

/-- A stand-in for the `float` overload of `std::sin`, passed where a routine is required
in scenes that never call it (every scene but `OsciladorRigidezTiempo`). -/
def seno_no_usado : Flotante → Flotante := fun x => x

/-- The simulation at the start of `main` (lines 549-550) in binary32; `dt` is
`1.0f / 120.0f`. -/
def simInicial : Simulacion Flotante :=
  { escena := .FuerzaConstante, integrador := .EulerSemimplicito, p := parametros,
    s := ⟨⟨-Flotante.de 4 5, Flotante.de 3 5⟩, ⟨Flotante.de 6 5, Flotante.de 1 5⟩⟩,
    a := ⟨Flotante.de 0 1, Flotante.de 0 1⟩, dt := Flotante.de 1 120, pausado := false,
    estela := [], t_sim := Flotante.de 0 1,
    r_previa := ⟨-Flotante.de 4 5, Flotante.de 3 5⟩, area_acumulada := Flotante.de 0 1,
    reloj_area := Flotante.de 0 1, reloj_imprime := Flotante.de 0 1, contador_frames := 0 }

/-- The start of the `InversaCuadrado` scene (key `4` on the initial simulation). -/
def simInversa : Simulacion Flotante := { simInicial with escena := .InversaCuadrado }

/-- An undamped oscillator with the reset state, the default `m = 1`, `k = 2`, and the
step `dt = 2^-23`. -/
def simOscilador : Simulacion Flotante :=
  { simInicial with
    escena := .Oscilador
    p := { parametros with amortiguamiento := Flotante.de 0 1 }
    dt := Flotante.dosALa 1 23 }

end B32

namespace B32

/-- The dot product of two binary32 vectors taken exactly. -/
def dot_exacto (a b : Vec2 Flotante) : ℚ := a.x.valor * b.x.valor + a.y.valor * b.y.valor

/-- The angular momentum `m·(x·vy - y·vx)` of a binary32 state taken exactly. -/
def momento_exacto (sim : Simulacion Flotante) : ℚ :=
  sim.p.m.valor * (sim.s.r.x.valor * sim.s.v.y.valor - sim.s.r.y.valor * sim.s.v.x.valor)

/-- The oscillator energy `½·m·|v|² + ½·k·|r|²` of a binary32 state taken exactly. -/
def energia_exacta (sim : Simulacion Flotante) : ℚ :=
  1 / 2 * sim.p.m.valor * dot_exacto sim.s.v sim.s.v
    + 1 / 2 * sim.p.k.valor * dot_exacto sim.s.r sim.s.r

end B32

namespace B32

/-- The state `r = (3, 4)`, `v = (1, 0)`. -/
def estadoEjemplo : Estado Flotante :=
  ⟨⟨Flotante.de 3 1, Flotante.de 4 1⟩, ⟨Flotante.de 1 1, Flotante.de 0 1⟩⟩

end B32

end Goldstein

/-! ## Basic facts about the embedded routines -/

namespace Goldstein

section Hechos

variable {K : Type} [LinearOrderedField K]

theorem norm2_nonneg (a : Vec2 K) : 0 ≤ norm2 a := by
  unfold norm2 dot
  nlinarith [mul_self_nonneg a.x, mul_self_nonneg a.y]

@[simp] theorem paso_euler_semimplicito_escena (cm : CMath K) (sim : Simulacion K) :
    (paso_euler_semimplicito cm sim).escena = sim.escena := rfl

@[simp] theorem paso_euler_semimplicito_p (cm : CMath K) (sim : Simulacion K) :
    (paso_euler_semimplicito cm sim).p = sim.p := rfl

@[simp] theorem paso_euler_semimplicito_dt (cm : CMath K) (sim : Simulacion K) :
    (paso_euler_semimplicito cm sim).dt = sim.dt := rfl

@[simp] theorem paso_euler_semimplicito_t_sim (cm : CMath K) (sim : Simulacion K) :
    (paso_euler_semimplicito cm sim).t_sim = sim.t_sim + sim.dt := rfl

@[simp] theorem paso_rk4_escena (cm : CMath K) (sim : Simulacion K) :
    (paso_rk4 cm sim).escena = sim.escena := by
  unfold paso_rk4; simp only []; split <;> rfl

@[simp] theorem paso_rk4_p (cm : CMath K) (sim : Simulacion K) :
    (paso_rk4 cm sim).p = sim.p := by
  unfold paso_rk4; simp only []; split <;> rfl

@[simp] theorem paso_rk4_dt (cm : CMath K) (sim : Simulacion K) :
    (paso_rk4 cm sim).dt = sim.dt := by
  unfold paso_rk4; simp only []; split <;> rfl

@[simp] theorem paso_rk4_t_sim (cm : CMath K) (sim : Simulacion K) :
    (paso_rk4 cm sim).t_sim = sim.t_sim + sim.dt := by
  unfold paso_rk4; simp only []; split <;> rfl

end Hechos

/-- After the projection the position has norm `radio` (real arithmetic, `radio > 0`). -/
theorem norm_aplicar_restriccion_circulo (sn : ℝ → ℝ) (s : Estado ℝ) (p : Parametros ℝ)
    (hr : 0 < p.radio) :
    norm ⟨Real.sqrt, sn⟩ (aplicar_restriccion_circulo ⟨Real.sqrt, sn⟩ s p).r = p.radio := by
  unfold aplicar_restriccion_circulo
  simp only []
  split_ifs with h
  · simp only [norm, norm2, dot, mul_zero, add_zero]
    exact Real.sqrt_mul_self hr.le
  · have hpos : 0 < norm ⟨Real.sqrt, sn⟩ s.r := by
      have : (1 : ℝ) / 1000000 ≤ norm ⟨Real.sqrt, sn⟩ s.r := not_lt.mp h
      linarith [show (0 : ℝ) < 1 / 1000000 by norm_num]
    have hsq : norm ⟨Real.sqrt, sn⟩ s.r * norm ⟨Real.sqrt, sn⟩ s.r = s.r.x * s.r.x + s.r.y * s.r.y := by
      have := Real.mul_self_sqrt (norm2_nonneg s.r)
      simpa [norm, norm2, dot] using this
    generalize norm ⟨Real.sqrt, sn⟩ s.r = n at hpos hsq
    have hn : n ≠ 0 := hpos.ne'
    simp only [norm, norm2, dot, Vec2.mul, Vec2.div]
    have : s.r.x / n * p.radio * (s.r.x / n * p.radio) + s.r.y / n * p.radio * (s.r.y / n * p.radio)
        = p.radio * p.radio := by
      field_simp
      rw [hsq]; ring
    rw [this]
    exact Real.sqrt_mul_self hr.le

end Goldstein

namespace Goldstein

section Hechos

variable {K : Type} [LinearOrderedField K]

@[simp] theorem avanzar_escena (cm : CMath K) (sim : Simulacion K) :
    (avanzar cm sim).escena = sim.escena := by
  unfold avanzar; split <;> simp

@[simp] theorem avanzar_p (cm : CMath K) (sim : Simulacion K) :
    (avanzar cm sim).p = sim.p := by
  unfold avanzar; split <;> simp

@[simp] theorem avanzar_t_sim (cm : CMath K) (sim : Simulacion K) :
    (avanzar cm sim).t_sim = sim.t_sim + sim.dt := by
  unfold avanzar; split <;> simp

@[simp] theorem pasos_nil (cm : CMath K) (sim : Simulacion K) : pasos cm [] sim = sim := rfl

theorem pasos_append (cm : CMath K) (cs ds : List (Integrador × K)) (sim : Simulacion K) :
    pasos cm (cs ++ ds) sim = pasos cm ds (pasos cm cs sim) := by
  simp [pasos, List.foldl_append]

theorem pasos_snoc (cm : CMath K) (cs : List (Integrador × K)) (c : Integrador × K)
    (sim : Simulacion K) :
    pasos cm (cs ++ [c]) sim =
      avanzar cm { pasos cm cs sim with integrador := c.1, dt := c.2 } := by
  simp [pasos, List.foldl_append]

@[simp] theorem pasos_escena (cm : CMath K) (cs : List (Integrador × K)) (sim : Simulacion K) :
    (pasos cm cs sim).escena = sim.escena := by
  induction cs using List.reverseRecOn with
  | nil => rfl
  | append_singleton cs c ih => rw [pasos_snoc]; simpa using ih

@[simp] theorem pasos_p (cm : CMath K) (cs : List (Integrador × K)) (sim : Simulacion K) :
    (pasos cm cs sim).p = sim.p := by
  induction cs using List.reverseRecOn with
  | nil => rfl
  | append_singleton cs c ih => rw [pasos_snoc]; simpa using ih

end Hechos

/-- One Euler step in the circle scene ends on the circle. -/
theorem norm_paso_euler_circulo (sn : ℝ → ℝ) (sim : Simulacion ℝ)
    (hesc : sim.escena = .RestriccionCirculo) (hr : 0 < sim.p.radio) :
    norm ⟨Real.sqrt, sn⟩ (paso_euler_semimplicito ⟨Real.sqrt, sn⟩ sim).s.r = sim.p.radio := by
  unfold paso_euler_semimplicito
  simp only [hesc, if_true]
  exact norm_aplicar_restriccion_circulo sn _ _ hr

/-- One RK4 step in the circle scene ends on the circle. -/
theorem norm_paso_rk4_circulo (sn : ℝ → ℝ) (sim : Simulacion ℝ)
    (hesc : sim.escena = .RestriccionCirculo) (hr : 0 < sim.p.radio) :
    norm ⟨Real.sqrt, sn⟩ (paso_rk4 ⟨Real.sqrt, sn⟩ sim).s.r = sim.p.radio := by
  unfold paso_rk4
  simp only [hesc, if_true]
  exact norm_aplicar_restriccion_circulo sn _ _ hr

/-- One dispatched step in the circle scene ends on the circle. -/
theorem norm_avanzar_circulo (sn : ℝ → ℝ) (sim : Simulacion ℝ)
    (hesc : sim.escena = .RestriccionCirculo) (hr : 0 < sim.p.radio) :
    norm ⟨Real.sqrt, sn⟩ (avanzar ⟨Real.sqrt, sn⟩ sim).s.r = sim.p.radio := by
  unfold avanzar
  split
  · exact norm_paso_euler_circulo sn sim hesc hr
  · exact norm_paso_rk4_circulo sn sim hesc hr

/-- C1 (constraint invariant).  In the `RestriccionCirculo` scene with `radio > 0` and
`m > 0`, one call of `paso_euler_semimplicito` or of `paso_rk4`, from any prior state and
with any step size, leaves the position at distance exactly `radio` from the origin; hence
the same holds after every non-empty run of steps, whatever integrator and step size each
step uses. -/
theorem C1_restriccion_circulo_invariante (sim : Simulacion ℝ)
    (hesc : sim.escena = .RestriccionCirculo) (hr : 0 < sim.p.radio) (_hm : 0 < sim.p.m) :
    norm ⟨Real.sqrt, Real.sin⟩ (paso_euler_semimplicito ⟨Real.sqrt, Real.sin⟩ sim).s.r
        = sim.p.radio ∧
    norm ⟨Real.sqrt, Real.sin⟩ (paso_rk4 ⟨Real.sqrt, Real.sin⟩ sim).s.r = sim.p.radio ∧
    ∀ (cs : List (Integrador × ℝ)), cs ≠ [] →
      norm ⟨Real.sqrt, Real.sin⟩ (pasos ⟨Real.sqrt, Real.sin⟩ cs sim).s.r = sim.p.radio := by
  refine ⟨norm_paso_euler_circulo _ sim hesc hr, norm_paso_rk4_circulo _ sim hesc hr, ?_⟩
  intro cs hcs
  obtain ⟨ds, c, rfl⟩ : ∃ ds c, cs = ds ++ [c] := by
    rcases List.eq_nil_or_concat cs with h | ⟨ds, c, h⟩
    · exact absurd h hcs
    · exact ⟨ds, c, by simpa using h⟩
  rw [pasos_snoc]
  have := norm_avanzar_circulo Real.sin
    { pasos ⟨Real.sqrt, Real.sin⟩ ds sim with integrador := c.1, dt := c.2 }
    (by simpa using hesc) (by simpa using hr)
  simpa using this

end Goldstein

namespace Goldstein

/-- Witness for C1: the state right after key `5` is pressed on the initial simulation. -/
theorem C1_restriccion_circulo_invariante_witness :
    (aplicar_cambios_por_tecla (simInicial : Simulacion ℝ) 53).escena = .RestriccionCirculo ∧
    norm ⟨Real.sqrt, Real.sin⟩ (paso_euler_semimplicito ⟨Real.sqrt, Real.sin⟩
      (aplicar_cambios_por_tecla simInicial 53)).s.r = 5 / 4 ∧
    norm ⟨Real.sqrt, Real.sin⟩ (paso_rk4 ⟨Real.sqrt, Real.sin⟩
      (aplicar_cambios_por_tecla simInicial 53)).s.r = 5 / 4 ∧
    norm ⟨Real.sqrt, Real.sin⟩ (pasos ⟨Real.sqrt, Real.sin⟩
      [(Integrador.RK4, 1 / 120), (Integrador.EulerSemimplicito, 1 / 60)]
      (aplicar_cambios_por_tecla simInicial 53)).s.r = 5 / 4 :=
  have h := C1_restriccion_circulo_invariante
    (aplicar_cambios_por_tecla (simInicial : Simulacion ℝ) 53) rfl
    (show (0 : ℝ) < 5 / 4 by norm_num) (show (0 : ℝ) < 1 by norm_num)
  ⟨rfl, h.1, h.2.1, h.2.2 _ (by simp)⟩

section Traslacion

variable {K : Type} [LinearOrderedField K]

/-- In the translation scene an Euler step keeps `v.x`. -/
theorem paso_euler_traslacion_vx (cm : CMath K) (sim : Simulacion K)
    (hesc : sim.escena = .NoetherTraslacionPx) :
    (paso_euler_semimplicito cm sim).s.v.x = sim.s.v.x := by
  simp [paso_euler_semimplicito, hesc, fuerza, Vec2.add, Vec2.mul, Vec2.div]

/-- In the translation scene an RK4 step keeps `v.x`. -/
theorem paso_rk4_traslacion_vx (cm : CMath K) (sim : Simulacion K)
    (hesc : sim.escena = .NoetherTraslacionPx) :
    (paso_rk4 cm sim).s.v.x = sim.s.v.x := by
  simp [paso_rk4, hesc, derivadas, suma, escala, fuerza, Vec2.add, Vec2.mul, Vec2.div]

/-- In the translation scene a dispatched step keeps `v.x`. -/
theorem avanzar_traslacion_vx (cm : CMath K) (sim : Simulacion K)
    (hesc : sim.escena = .NoetherTraslacionPx) :
    (avanzar cm sim).s.v.x = sim.s.v.x := by
  unfold avanzar
  split
  · exact paso_euler_traslacion_vx cm sim hesc
  · exact paso_rk4_traslacion_vx cm sim hesc

/-- In the translation scene a run of steps keeps `v.x`. -/
theorem pasos_traslacion_vx (cm : CMath K) (cs : List (Integrador × K)) (sim : Simulacion K)
    (hesc : sim.escena = .NoetherTraslacionPx) :
    (pasos cm cs sim).s.v.x = sim.s.v.x := by
  induction cs using List.reverseRecOn with
  | nil => rfl
  | append_singleton cs c ih =>
    rw [pasos_snoc, avanzar_traslacion_vx _ _ (by simpa using hesc)]
    exact ih

end Traslacion

/-- C2 (momentum conservation).  In the `NoetherTraslacionPx` scene with `m > 0`, for every
state, parameter set and step size, one step of semi-implicit Euler or of RK4 leaves the
x-component of the velocity unchanged, hence `px = m * vx` unchanged; and `px` is the same
after any run of steps, whatever integrator and step size each step uses. -/
theorem C2_px_conservado {K : Type} [LinearOrderedField K] (cm : CMath K) (sim : Simulacion K)
    (hesc : sim.escena = .NoetherTraslacionPx) (_hm : 0 < sim.p.m) :
    (paso_euler_semimplicito cm sim).s.v.x = sim.s.v.x ∧
    momento_px (paso_euler_semimplicito cm sim) = momento_px sim ∧
    (paso_rk4 cm sim).s.v.x = sim.s.v.x ∧
    momento_px (paso_rk4 cm sim) = momento_px sim ∧
    ∀ cs : List (Integrador × K), momento_px (pasos cm cs sim) = momento_px sim := by
  refine ⟨paso_euler_traslacion_vx cm sim hesc, ?_, paso_rk4_traslacion_vx cm sim hesc, ?_, ?_⟩
  · simp [momento_px, paso_euler_traslacion_vx cm sim hesc]
  · simp [momento_px, paso_rk4_traslacion_vx cm sim hesc]
  · intro cs
    simp [momento_px, pasos_traslacion_vx cm cs sim hesc]

/-- Witness for C2: the state right after key `8` is pressed on the initial simulation,
where `px = 6/5`. -/
theorem C2_px_conservado_witness :
    (aplicar_cambios_por_tecla (simInicial : Simulacion ℝ) 56).escena = .NoetherTraslacionPx ∧
    momento_px (paso_euler_semimplicito ⟨Real.sqrt, Real.sin⟩
      (aplicar_cambios_por_tecla simInicial 56)) = momento_px
      (aplicar_cambios_por_tecla (simInicial : Simulacion ℝ) 56) ∧
    momento_px (pasos ⟨Real.sqrt, Real.sin⟩
      [(Integrador.RK4, 1 / 120), (Integrador.EulerSemimplicito, 1 / 60)]
      (aplicar_cambios_por_tecla simInicial 56)) = momento_px
      (aplicar_cambios_por_tecla (simInicial : Simulacion ℝ) 56) :=
  have h := C2_px_conservado ⟨Real.sqrt, Real.sin⟩
    (aplicar_cambios_por_tecla (simInicial : Simulacion ℝ) 56) rfl
    (show (0 : ℝ) < 1 by norm_num)
  ⟨rfl, h.2.1, h.2.2.2.2 _⟩

end Goldstein

namespace Goldstein

/-! ## Symplectic Euler on the undamped oscillator -/

section Oscilador

variable {K : Type} [LinearOrderedField K]

@[simp] theorem iterar_euler_escena (cm : CMath K) (N : ℕ) (sim : Simulacion K) :
    ((paso_euler_semimplicito cm)^[N] sim).escena = sim.escena := by
  induction N with
  | zero => rfl
  | succ n ih => rw [Function.iterate_succ_apply']; simpa using ih

@[simp] theorem iterar_euler_p (cm : CMath K) (N : ℕ) (sim : Simulacion K) :
    ((paso_euler_semimplicito cm)^[N] sim).p = sim.p := by
  induction N with
  | zero => rfl
  | succ n ih => rw [Function.iterate_succ_apply']; simpa using ih

@[simp] theorem iterar_euler_dt (cm : CMath K) (N : ℕ) (sim : Simulacion K) :
    ((paso_euler_semimplicito cm)^[N] sim).dt = sim.dt := by
  induction N with
  | zero => rfl
  | succ n ih => rw [Function.iterate_succ_apply']; simpa using ih

/-- One Euler step of the undamped oscillator conserves the modified energy. -/
theorem energia_modificada_paso (cm : CMath K) (sim : Simulacion K)
    (hesc : sim.escena = .Oscilador) (hd : sim.p.amortiguamiento = 0) (hm : sim.p.m ≠ 0) :
    energia_modificada (paso_euler_semimplicito cm sim) = energia_modificada sim := by
  simp only [energia_modificada, paso_euler_semimplicito, hesc, hd, fuerza, norm2, dot,
    Vec2.add, Vec2.mul, Vec2.div]
  simp only [if_neg (show Escena.Oscilador ≠ Escena.RestriccionCirculo by decide)]
  field_simp
  ring

/-- Any number of Euler steps of the undamped oscillator conserves the modified energy. -/
theorem energia_modificada_iterar (cm : CMath K) (N : ℕ) (sim : Simulacion K)
    (hesc : sim.escena = .Oscilador) (hd : sim.p.amortiguamiento = 0) (hm : sim.p.m ≠ 0) :
    energia_modificada ((paso_euler_semimplicito cm)^[N] sim) = energia_modificada sim := by
  induction N with
  | zero => rfl
  | succ n ih =>
    rw [Function.iterate_succ_apply', energia_modificada_paso cm _ (by simpa using hesc)
      (by simpa using hd) (by simpa using hm)]
    exact ih

/-- The cross term of the modified energy is dominated by the energy itself. -/
theorem cota_termino_cruzado (m k h w x y vx vy : K) (hm : 0 < m) (hw : 0 ≤ w)
    (hk : k = m * (w * w)) (hh : 0 < h) :
    |h * k * (x * vx + y * vy)| ≤
      h * w / 2 * (m * (vx * vx + vy * vy) + k * (x * x + y * y)) := by
  subst hk
  have c : 0 ≤ h * w * m := mul_nonneg (mul_nonneg hh.le hw) hm.le
  have e1 := mul_nonneg c (mul_self_nonneg (w * x - vx))
  have e2 := mul_nonneg c (mul_self_nonneg (w * y - vy))
  have e3 := mul_nonneg c (mul_self_nonneg (w * x + vx))
  have e4 := mul_nonneg c (mul_self_nonneg (w * y + vy))
  rw [abs_le]
  constructor <;> nlinarith

end Oscilador

end Goldstein

namespace Goldstein

/-- The modified energy lies between `(2 - dt·ω)·E` and `(2 + dt·ω)·E`. -/
theorem energia_modificada_cotas (sim : Simulacion ℝ) (hesc : sim.escena = .Oscilador)
    (hm : 0 < sim.p.m) (hk : 0 < sim.p.k) (hh : 0 < sim.dt) :
    (2 - sim.dt * Real.sqrt (sim.p.k / sim.p.m)) * energia_total ⟨Real.sqrt, Real.sin⟩ sim
        ≤ energia_modificada sim ∧
    energia_modificada sim
        ≤ (2 + sim.dt * Real.sqrt (sim.p.k / sim.p.m)) * energia_total ⟨Real.sqrt, Real.sin⟩ sim := by
  have hw : 0 ≤ Real.sqrt (sim.p.k / sim.p.m) := Real.sqrt_nonneg _
  have hww : Real.sqrt (sim.p.k / sim.p.m) * Real.sqrt (sim.p.k / sim.p.m) = sim.p.k / sim.p.m :=
    Real.mul_self_sqrt (div_nonneg hk.le hm.le)
  have hk' : sim.p.k = sim.p.m * (Real.sqrt (sim.p.k / sim.p.m) * Real.sqrt (sim.p.k / sim.p.m)) := by
    rw [hww]; field_simp
  have hc := cota_termino_cruzado sim.p.m sim.p.k sim.dt (Real.sqrt (sim.p.k / sim.p.m))
    sim.s.r.x sim.s.r.y sim.s.v.x sim.s.v.y hm hw hk' hh
  rw [abs_le] at hc
  simp only [energia_modificada, energia_total, energia_cinetica, energia_potencial, hesc,
    norm2, dot]
  constructor <;> nlinarith [hc.1, hc.2]

/-- C3 (symplectic-Euler energy bound).  In the `Oscilador` scene with damping 0, `m > 0`,
`k > 0` and a fixed step `h = dt > 0` with `h·sqrt(k/m) < 2`, the total energy
`E = ½·m·|v|² + ½·k·|r|²` after `N` calls of `paso_euler_semimplicito` is at most
`((2 + h·ω)/(2 - h·ω))` times its initial value, `ω = sqrt(k/m)`, for every `N` and every
initial state. -/
theorem C3_energia_acotada (sim : Simulacion ℝ) (N : ℕ)
    (hesc : sim.escena = .Oscilador) (hd : sim.p.amortiguamiento = 0)
    (hm : 0 < sim.p.m) (hk : 0 < sim.p.k) (hh : 0 < sim.dt)
    (hst : sim.dt * Real.sqrt (sim.p.k / sim.p.m) < 2) :
    energia_total ⟨Real.sqrt, Real.sin⟩ ((paso_euler_semimplicito ⟨Real.sqrt, Real.sin⟩)^[N] sim)
      ≤ (2 + sim.dt * Real.sqrt (sim.p.k / sim.p.m)) / (2 - sim.dt * Real.sqrt (sim.p.k / sim.p.m))
          * energia_total ⟨Real.sqrt, Real.sin⟩ sim := by
  have hN := (energia_modificada_cotas ((paso_euler_semimplicito ⟨Real.sqrt, Real.sin⟩)^[N] sim)
    (by simpa using hesc) (by simpa using hm) (by simpa using hk) (by simpa using hh)).1
  have h0 := (energia_modificada_cotas sim hesc hm hk hh).2
  have hQ := energia_modificada_iterar ⟨Real.sqrt, Real.sin⟩ N sim hesc hd hm.ne'
  simp only [iterar_euler_p, iterar_euler_dt] at hN
  have hpos : 0 < 2 - sim.dt * Real.sqrt (sim.p.k / sim.p.m) := by linarith
  rw [div_mul_eq_mul_div, le_div_iff₀ hpos]
  linarith

end Goldstein

namespace Goldstein

/-- Witness for C3: the undamped oscillator reached by keys `6`, `3` (`m = 1`, `k = 2`,
`dt = 1/120`), after three Euler steps. -/
theorem C3_energia_acotada_witness :
    (simOscilador : Simulacion ℝ).escena = .Oscilador ∧
    (simOscilador : Simulacion ℝ).p.amortiguamiento = 0 ∧
    (simOscilador : Simulacion ℝ).dt * Real.sqrt (simOscilador.p.k / simOscilador.p.m) < 2 ∧
    energia_total ⟨Real.sqrt, Real.sin⟩
        ((paso_euler_semimplicito ⟨Real.sqrt, Real.sin⟩)^[3] simOscilador)
      ≤ (2 + (simOscilador : Simulacion ℝ).dt * Real.sqrt (simOscilador.p.k / simOscilador.p.m))
          / (2 - (simOscilador : Simulacion ℝ).dt
              * Real.sqrt (simOscilador.p.k / simOscilador.p.m))
          * energia_total ⟨Real.sqrt, Real.sin⟩ simOscilador :=
  have hst : (simOscilador : Simulacion ℝ).dt
      * Real.sqrt (simOscilador.p.k / simOscilador.p.m) < 2 := by
    show (1 / 120 : ℝ) * Real.sqrt (2 / 1) < 2
    have h2 : Real.sqrt (2 / 1) < 2 := by
      rw [Real.sqrt_lt' (by norm_num)]; norm_num
    linarith [Real.sqrt_nonneg (2 / 1 : ℝ)]
  ⟨rfl, rfl, hst,
    C3_energia_acotada simOscilador 3 rfl rfl (show (0 : ℝ) < 1 by norm_num)
      (show (0 : ℝ) < 2 by norm_num) (show (0 : ℝ) < 1 / 120 by norm_num) hst⟩

/-- The derivative function of the undamped oscillator is linear: `(v, -ω²·r)`. -/
theorem derivadas_oscilador {K : Type} [LinearOrderedField K] (cm : CMath K)
    (s : Estado K) (p : Parametros K) (t : K) (hd : p.amortiguamiento = 0) (hm : p.m ≠ 0)
    (w : K) (hw : w ^ 2 = p.k / p.m) :
    derivadas cm s .Oscilador p t = ⟨s.v, s.r.mul (-(w ^ 2))⟩ := by
  have hk : p.k = p.m * w ^ 2 := by rw [hw]; field_simp
  simp only [derivadas, fuerza, hd, Vec2.add, Vec2.mul, Vec2.div, hk]
  congr 1
  congr 1 <;> · field_simp; ring

/-- Closed form of one RK4 step of the undamped oscillator. -/
theorem paso_rk4_oscilador {K : Type} [LinearOrderedField K] (cm : CMath K)
    (sim : Simulacion K) (hesc : sim.escena = .Oscilador)
    (hd : sim.p.amortiguamiento = 0) (hm : sim.p.m ≠ 0) (w : K)
    (hw : w ^ 2 = sim.p.k / sim.p.m) :
    (paso_rk4 cm sim).s.r =
        (sim.s.r.mul (rk4_c sim.dt w)).add (sim.s.v.mul (rk4_s sim.dt w)) ∧
    (paso_rk4 cm sim).s.v =
        (sim.s.v.mul (rk4_c sim.dt w)).sub (sim.s.r.mul (rk4_s sim.dt w * w ^ 2)) := by
  simp only [paso_rk4, hesc, derivadas_oscilador cm _ _ _ hd hm w hw]
  simp only [if_neg (show Escena.Oscilador ≠ Escena.RestriccionCirculo by decide)]
  simp only [suma, escala, Vec2.add, Vec2.mul, Vec2.sub, rk4_c, rk4_s]
  refine ⟨?_, ?_⟩ <;> · congr 1 <;> ring

end Goldstein

namespace Goldstein

/-- The Taylor polynomial of degree 4 of `exp (i x)`, split in real and imaginary part. -/
theorem suma_taylor_exp (x : ℝ) :
    (∑ m in Finset.range 5, ((x : ℂ) * Complex.I) ^ m / (m.factorial : ℂ))
      = ((1 - x ^ 2 / 2 + x ^ 4 / 24 : ℝ) : ℂ) + ((x - x ^ 3 / 6 : ℝ) : ℂ) * Complex.I := by
  simp only [Finset.sum_range_succ, Finset.range_zero, Finset.sum_empty, mul_pow, Nat.factorial]
  have h2 : Complex.I ^ 2 = -1 := Complex.I_sq
  have h3 : Complex.I ^ 3 = -Complex.I := by rw [pow_succ, h2]; ring
  have h4 : Complex.I ^ 4 = 1 := Complex.I_pow_four
  rw [h2, h3, h4]
  push_cast
  ring

/-- For `|x| ≤ 1` the polynomials `1 - x²/2 + x⁴/24` and `x - x³/6` differ from `cos x` and
`sin x` by at most `|x|⁵/100`. -/
theorem cos_sin_orden_cuatro (x : ℝ) (hx : |x| ≤ 1) :
    |Real.cos x - (1 - x ^ 2 / 2 + x ^ 4 / 24)| ≤ |x| ^ 5 / 100 ∧
    |Real.sin x - (x - x ^ 3 / 6)| ≤ |x| ^ 5 / 100 := by
  have habs : Complex.abs ((x : ℂ) * Complex.I) = |x| := by simp
  have hb := Complex.exp_bound (x := (x : ℂ) * Complex.I) (by rw [habs]; exact hx) (n := 5)
    (by norm_num)
  rw [suma_taylor_exp, habs] at hb
  have hc : |x| ^ 5 * (((5 : ℕ).succ : ℝ) * (((5 : ℕ).factorial : ℝ) * (5 : ℕ))⁻¹)
      = |x| ^ 5 / 100 := by
    norm_num [Nat.factorial]
    ring
  rw [hc] at hb
  set z : ℂ := Complex.exp ((x : ℂ) * Complex.I) -
    (((1 - x ^ 2 / 2 + x ^ 4 / 24 : ℝ) : ℂ) + ((x - x ^ 3 / 6 : ℝ) : ℂ) * Complex.I) with hz
  have hre : z.re = Real.cos x - (1 - x ^ 2 / 2 + x ^ 4 / 24) := by
    simp only [hz, Complex.sub_re, Complex.add_re, Complex.mul_re, Complex.ofReal_re,
      Complex.ofReal_im, Complex.I_re, Complex.I_im, Complex.exp_ofReal_mul_I_re]
    ring
  have him : z.im = Real.sin x - (x - x ^ 3 / 6) := by
    simp only [hz, Complex.sub_im, Complex.add_im, Complex.mul_im, Complex.ofReal_re,
      Complex.ofReal_im, Complex.I_re, Complex.I_im, Complex.exp_ofReal_mul_I_im]
    ring
  constructor
  · rw [← hre]; exact (Complex.abs_re_le_abs z).trans hb
  · rw [← him]; exact (Complex.abs_im_le_abs z).trans hb

/-- C4 (RK4 on the oscillator).  In the `Oscilador` scene with damping 0 and `m > 0`, with
`ω² = k/m`, `c = 1 - (hω)²/2 + (hω)⁴/24` and `s = h - h³ω²/6`, one call of `paso_rk4` with
step `h = dt` maps `(r, v)` to `r' = c·r + s·v`, `v' = c·v - s·ω²·r`, and advances the
simulation clock by `h`.  The coefficients `c` and `ω·s` that replace `cos (ωh)` and
`sin (ωh)` of the exact harmonic solution agree with them through order `h⁴`: for
`|hω| ≤ 1` the differences are at most `|hω|⁵/100`. -/
theorem C4_rk4_oscilador (sim : Simulacion ℝ) (hesc : sim.escena = .Oscilador)
    (hd : sim.p.amortiguamiento = 0) (hm : 0 < sim.p.m) (ω : ℝ)
    (hω : ω ^ 2 = sim.p.k / sim.p.m) :
    (paso_rk4 ⟨Real.sqrt, Real.sin⟩ sim).s.r =
        (sim.s.r.mul (rk4_c sim.dt ω)).add (sim.s.v.mul (rk4_s sim.dt ω)) ∧
    (paso_rk4 ⟨Real.sqrt, Real.sin⟩ sim).s.v =
        (sim.s.v.mul (rk4_c sim.dt ω)).sub (sim.s.r.mul (rk4_s sim.dt ω * ω ^ 2)) ∧
    (paso_rk4 ⟨Real.sqrt, Real.sin⟩ sim).t_sim = sim.t_sim + sim.dt ∧
    (|sim.dt * ω| ≤ 1 →
      |Real.cos (sim.dt * ω) - rk4_c sim.dt ω| ≤ |sim.dt * ω| ^ 5 / 100 ∧
      |Real.sin (sim.dt * ω) - ω * rk4_s sim.dt ω| ≤ |sim.dt * ω| ^ 5 / 100) := by
  obtain ⟨h1, h2⟩ := paso_rk4_oscilador ⟨Real.sqrt, Real.sin⟩ sim hesc hd hm.ne' ω hω
  refine ⟨h1, h2, paso_rk4_t_sim _ sim, ?_⟩
  intro hx
  have hs : ω * rk4_s sim.dt ω = sim.dt * ω - (sim.dt * ω) ^ 3 / 6 := by
    unfold rk4_s; ring
  rw [hs]
  exact cos_sin_orden_cuatro (sim.dt * ω) hx

/-- Witness for C4: the undamped oscillator reached by keys `6`, `3` (`m = 1`, `k = 2`,
`dt = 1/120`), with `ω = sqrt 2`. -/
theorem C4_rk4_oscilador_witness :
    (simOscilador : Simulacion ℝ).escena = .Oscilador ∧
    (simOscilador : Simulacion ℝ).p.amortiguamiento = 0 ∧
    Real.sqrt 2 ^ 2 = (simOscilador : Simulacion ℝ).p.k / simOscilador.p.m ∧
    (paso_rk4 ⟨Real.sqrt, Real.sin⟩ simOscilador).s.r =
        (simOscilador.s.r.mul (rk4_c (1 / 120) (Real.sqrt 2))).add
          (simOscilador.s.v.mul (rk4_s (1 / 120) (Real.sqrt 2))) ∧
    (paso_rk4 ⟨Real.sqrt, Real.sin⟩ simOscilador).s.v =
        (simOscilador.s.v.mul (rk4_c (1 / 120) (Real.sqrt 2))).sub
          (simOscilador.s.r.mul (rk4_s (1 / 120) (Real.sqrt 2) * Real.sqrt 2 ^ 2)) ∧
    (paso_rk4 ⟨Real.sqrt, Real.sin⟩ simOscilador).t_sim = 0 + 1 / 120 ∧
    |Real.cos (1 / 120 * Real.sqrt 2) - rk4_c (1 / 120) (Real.sqrt 2)|
        ≤ |1 / 120 * Real.sqrt 2| ^ 5 / 100 :=
  have hω : Real.sqrt 2 ^ 2 = (simOscilador : Simulacion ℝ).p.k / simOscilador.p.m := by
    show Real.sqrt 2 ^ 2 = (2 : ℝ) / 1
    rw [Real.sq_sqrt (by norm_num)]; norm_num
  have hx : |(simOscilador : Simulacion ℝ).dt * Real.sqrt 2| ≤ 1 := by
    show |(1 / 120 : ℝ) * Real.sqrt 2| ≤ 1
    have h2 : Real.sqrt 2 < 2 := by
      rw [Real.sqrt_lt' (by norm_num)]; norm_num
    rw [abs_of_nonneg (by positivity)]
    linarith [Real.sqrt_nonneg (2 : ℝ)]
  have h := C4_rk4_oscilador simOscilador rfl rfl (show (0 : ℝ) < 1 by norm_num)
    (Real.sqrt 2) hω
  ⟨rfl, rfl, hω, h.1, h.2.1, h.2.2.1, (h.2.2.2 hx).1⟩

end Goldstein

namespace Goldstein

section Estela

variable {K : Type}

@[simp] theorem actualizar_estela_escena (sim : Simulacion K) :
    (actualizar_estela sim).escena = sim.escena := by
  unfold actualizar_estela; simp only []; split <;> rfl

@[simp] theorem actualizar_estela_integrador (sim : Simulacion K) :
    (actualizar_estela sim).integrador = sim.integrador := by
  unfold actualizar_estela; simp only []; split <;> rfl

@[simp] theorem actualizar_estela_p (sim : Simulacion K) :
    (actualizar_estela sim).p = sim.p := by
  unfold actualizar_estela; simp only []; split <;> rfl

@[simp] theorem actualizar_estela_s (sim : Simulacion K) :
    (actualizar_estela sim).s = sim.s := by
  unfold actualizar_estela; simp only []; split <;> rfl

@[simp] theorem actualizar_estela_dt (sim : Simulacion K) :
    (actualizar_estela sim).dt = sim.dt := by
  unfold actualizar_estela; simp only []; split <;> rfl

@[simp] theorem actualizar_estela_t_sim (sim : Simulacion K) :
    (actualizar_estela sim).t_sim = sim.t_sim := by
  unfold actualizar_estela; simp only []; split <;> rfl

@[simp] theorem actualizar_estela_r_previa (sim : Simulacion K) :
    (actualizar_estela sim).r_previa = sim.r_previa := by
  unfold actualizar_estela; simp only []; split <;> rfl

@[simp] theorem actualizar_estela_area_acumulada (sim : Simulacion K) :
    (actualizar_estela sim).area_acumulada = sim.area_acumulada := by
  unfold actualizar_estela; simp only []; split <;> rfl

@[simp] theorem actualizar_estela_pausado (sim : Simulacion K) :
    (actualizar_estela sim).pausado = sim.pausado := by
  unfold actualizar_estela; simp only []; split <;> rfl

end Estela

section Areal

variable {K : Type} [LinearOrderedField K]

/-- One substep of the areal scene under semi-implicit Euler, started with
`r_previa = s.r`: the swept-area accumulator grows by `½·|h·(x·vy - y·vx)|`, the angular
momentum is unchanged and `r_previa = s.r` holds again. -/
theorem cuerpo_subpaso_areal (cm : CMath K) (h : K) (sim : Simulacion K)
    (hesc : sim.escena = .NoetherRotacionAreal) (hint : sim.integrador = .EulerSemimplicito)
    (hprev : sim.r_previa = sim.s.r) :
    (cuerpo_subpaso cm h sim).escena = sim.escena ∧
    (cuerpo_subpaso cm h sim).integrador = sim.integrador ∧
    (cuerpo_subpaso cm h sim).p = sim.p ∧
    (cuerpo_subpaso cm h sim).r_previa = (cuerpo_subpaso cm h sim).s.r ∧
    (cuerpo_subpaso cm h sim).t_sim = sim.t_sim + h ∧
    (cuerpo_subpaso cm h sim).area_acumulada = sim.area_acumulada
      + 1 / 2 * |h * (sim.s.r.x * sim.s.v.y - sim.s.r.y * sim.s.v.x)| ∧
    momento_angular (cuerpo_subpaso cm h sim) = momento_angular sim := by
  simp only [cuerpo_subpaso, avanzar, hint, if_true, paso_euler_semimplicito, hesc,
    if_neg (show Escena.NoetherRotacionAreal ≠ Escena.RestriccionCirculo by decide),
    actualizar_estela_escena, actualizar_estela_integrador, actualizar_estela_p,
    actualizar_estela_r_previa, actualizar_estela_s, actualizar_estela_t_sim,
    actualizar_estela_area_acumulada, momento_angular, hprev, fuerza, Vec2.add, Vec2.mul,
    Vec2.div, true_and]
  refine ⟨?_, ?_⟩
  · congr 3; ring
  · ring

end Areal

end Goldstein

namespace Goldstein

/-- Over any run of non-negative substeps of the areal scene under semi-implicit Euler,
started with `r_previa = s.r`, the accumulated swept area is the elapsed simulated time
times `|Lz|/(2m)`, and `Lz` is conserved. -/
theorem area_barrida_euler {K : Type} [LinearOrderedField K] (cm : CMath K) (hs : List K)
    (sim : Simulacion K) (hesc : sim.escena = .NoetherRotacionAreal)
    (hint : sim.integrador = .EulerSemimplicito) (hprev : sim.r_previa = sim.s.r)
    (hpos : ∀ h ∈ hs, 0 ≤ h) (hm : 0 < sim.p.m) :
    (subpasos cm hs sim).area_acumulada
        = sim.area_acumulada + hs.sum * (|momento_angular sim| / (2 * sim.p.m)) ∧
    (subpasos cm hs sim).t_sim = sim.t_sim + hs.sum ∧
    momento_angular (subpasos cm hs sim) = momento_angular sim := by
  induction hs generalizing sim with
  | nil => simp [subpasos]
  | cons h hs ih =>
    obtain ⟨e1, e2, e3, e4, e5, e6, e7⟩ := cuerpo_subpaso_areal cm h sim hesc hint hprev
    have hh : 0 ≤ h := hpos h (List.mem_cons_self _ _)
    obtain ⟨i1, i2, i3⟩ := ih (cuerpo_subpaso cm h sim) (e1.trans hesc) (e2.trans hint) e4
      (fun x hx => hpos x (List.mem_cons_of_mem _ hx)) (by rw [e3]; exact hm)
    have hstep : subpasos cm (h :: hs) sim = subpasos cm hs (cuerpo_subpaso cm h sim) := rfl
    rw [hstep, i1, i2, i3, e3, e5, e6, e7]
    refine ⟨?_, by simp [add_assoc], rfl⟩
    have habs : |h * (sim.s.r.x * sim.s.v.y - sim.s.r.y * sim.s.v.x)|
        = h * |sim.s.r.x * sim.s.v.y - sim.s.r.y * sim.s.v.x| := by
      rw [abs_mul, abs_of_nonneg hh]
    have hL : |momento_angular sim|
        = sim.p.m * |sim.s.r.x * sim.s.v.y - sim.s.r.y * sim.s.v.x| := by
      unfold momento_angular
      rw [abs_mul, abs_of_pos hm]
    rw [habs, hL, List.sum_cons]
    field_simp
    ring

/-- C5, evaluation at the program's own start of the areal scene (key `7`: `m = 1`,
`k = 2`, `r = (-0.8, 0.6)`, `v = (1.2, 0.2)`, semi-implicit Euler) and one substep
`h = 1/120`: `r_previa` equals the position, `Lz = -22/25 ≠ 0`, the swept area accumulated
over the substep divided by the simulated time elapsed is `+11/25`, whereas `Lz/(2m)`
before and after the substep is `-11/25`. -/
theorem C5_area_barrida_sin_signo :
    (simAreal : Simulacion ℝ).escena = .NoetherRotacionAreal ∧
    (simAreal : Simulacion ℝ).integrador = .EulerSemimplicito ∧
    (simAreal : Simulacion ℝ).r_previa = simAreal.s.r ∧
    momento_angular (simAreal : Simulacion ℝ) = -(22 / 25) ∧
    vel_areolar_ideal (simAreal : Simulacion ℝ) = -(11 / 25) ∧
    ((cuerpo_subpaso ⟨Real.sqrt, Real.sin⟩ (1 / 120) simAreal).area_acumulada
        - (simAreal : Simulacion ℝ).area_acumulada)
      / ((cuerpo_subpaso ⟨Real.sqrt, Real.sin⟩ (1 / 120) simAreal).t_sim
        - (simAreal : Simulacion ℝ).t_sim) = 11 / 25 ∧
    vel_areolar_ideal (cuerpo_subpaso ⟨Real.sqrt, Real.sin⟩ (1 / 120) simAreal)
      = -(11 / 25) := by
  have hL : momento_angular (simAreal : Simulacion ℝ) = -(22 / 25) := by
    show (1 : ℝ) * (-(4 / 5) * (1 / 5) - 3 / 5 * (6 / 5)) = -(22 / 25)
    norm_num
  have hm : (simAreal : Simulacion ℝ).p.m = 1 := rfl
  obtain ⟨-, -, e3, -, e5, e6, e7⟩ :=
    cuerpo_subpaso_areal ⟨Real.sqrt, Real.sin⟩ (1 / 120) (simAreal : Simulacion ℝ) rfl rfl rfl
  refine ⟨rfl, rfl, rfl, hL, ?_, ?_, ?_⟩
  · rw [vel_areolar_ideal, hL, hm]; norm_num
  · rw [e5, e6]
    have hx : (simAreal : Simulacion ℝ).s.r.x * simAreal.s.v.y
        - simAreal.s.r.y * simAreal.s.v.x = -(22 / 25) := by
      show (-(4 / 5) * (1 / 5) - 3 / 5 * (6 / 5) : ℝ) = -(22 / 25)
      norm_num
    rw [hx]
    have : |(1 / 120 : ℝ) * -(22 / 25)| = 11 / 1500 := by
      rw [abs_of_neg (by norm_num)]; norm_num
    rw [this]; norm_num
  · rw [vel_areolar_ideal, e7, e3, hL, hm]; norm_num

end Goldstein

namespace Goldstein

/-! ## The substep loop -/

section Bucle

variable {K : Type} [LinearOrderedField K]

@[simp] theorem subpasos_nil (cm : CMath K) (sim : Simulacion K) :
    subpasos cm [] sim = sim := rfl

@[simp] theorem subpasos_cons (cm : CMath K) (h : K) (hs : List K) (sim : Simulacion K) :
    subpasos cm (h :: hs) sim = subpasos cm hs (cuerpo_subpaso cm h sim) := rfl

/-- Each substep advances the simulation clock by its size. -/
theorem cuerpo_subpaso_t_sim (cm : CMath K) (h : K) (sim : Simulacion K) :
    (cuerpo_subpaso cm h sim).t_sim = sim.t_sim + h := by
  unfold cuerpo_subpaso
  simp only [actualizar_estela_t_sim]
  split <;> simp

/-- A run of substeps advances the simulation clock by the sum of the sizes. -/
theorem subpasos_t_sim (cm : CMath K) (hs : List K) (sim : Simulacion K) :
    (subpasos cm hs sim).t_sim = sim.t_sim + hs.sum := by
  induction hs generalizing sim with
  | nil => simp
  | cons h hs ih => rw [subpasos_cons, ih, cuerpo_subpaso_t_sim, List.sum_cons, add_assoc]

/-- The loop is the run of substeps of sizes `tamanos_subpasos`; on exit `iter` has grown by
their number and `acumulado` has shrunk by their sum. -/
theorem bucle_subpasos_eq (cm : CMath K) (paso : K) (acumulado : K) (iter : Nat)
    (sim : Simulacion K) :
    bucle_subpasos cm paso acumulado iter sim =
      (acumulado - (tamanos_subpasos paso acumulado iter).sum,
       iter + (tamanos_subpasos paso acumulado iter).length,
       subpasos cm (tamanos_subpasos paso acumulado iter) sim) := by
  generalize hn : 120 - iter = n
  induction n generalizing acumulado iter sim with
  | zero =>
    have hi : ¬ iter < 120 := by omega
    rw [bucle_subpasos, tamanos_subpasos]
    simp [hi]
  | succ n ih =>
    rw [bucle_subpasos, tamanos_subpasos]
    by_cases hc : acumulado > 0 ∧ iter < 120
    · simp only [hc, and_self, if_true]
      rw [ih _ _ _ (by omega)]
      simp only [List.sum_cons, List.length_cons, subpasos_cons, Prod.mk.injEq, and_true]
      constructor
      · ring
      · omega
    · simp [hc]

end Bucle

end Goldstein

namespace Goldstein

section Bucle

variable {K : Type} [LinearOrderedField K]

/-- Number of substeps taken from loop state `(acumulado, iter)`. -/
theorem tamanos_subpasos_length [FloorRing K] (paso : K) (hp : 0 < paso) (acumulado : K)
    (iter : Nat) :
    (tamanos_subpasos paso acumulado iter).length = min (120 - iter) ⌈acumulado / paso⌉₊ := by
  generalize hn : 120 - iter = n
  induction n generalizing acumulado iter with
  | zero =>
    have hi : ¬ iter < 120 := by omega
    rw [tamanos_subpasos]
    simp [hi]
  | succ n ih =>
    rw [tamanos_subpasos]
    by_cases hc : acumulado > 0
    · have hi : iter < 120 := by omega
      simp only [hc, hi, and_self, if_true, List.length_cons]
      rw [ih _ _ (by omega)]
      have hdiv : 0 < acumulado / paso := div_pos hc hp
      have hceil : 1 ≤ ⌈acumulado / paso⌉₊ := Nat.one_le_iff_ne_zero.mpr
        (by rw [Ne, Nat.ceil_eq_zero]; exact not_le.mpr hdiv)
      by_cases hle : acumulado ≤ paso
      · rw [min_eq_left hle, sub_self, zero_div, Nat.ceil_zero]
        have h1 : ⌈acumulado / paso⌉₊ ≤ 1 := by
          apply Nat.ceil_le.mpr
          rw [Nat.cast_one, div_le_one hp]
          exact hle
        omega
      · have hlt : paso < acumulado := not_le.mp hle
        rw [min_eq_right hlt.le]
        have hsub : (acumulado - paso) / paso = acumulado / paso - 1 := by
          field_simp
        have hnn : 0 ≤ acumulado / paso - 1 := by
          rw [sub_nonneg, one_le_div hp]
          exact hlt.le
        have hce := Nat.ceil_add_one hnn
        rw [sub_add_cancel] at hce
        rw [hsub]
        omega
    · have h0 : ⌈acumulado / paso⌉₊ = 0 := by
        rw [Nat.ceil_eq_zero]
        exact div_nonpos_of_nonpos_of_nonneg (not_lt.mp hc) hp.le
      simp [hc, h0]

/-- Total size of the substeps taken from loop state `(acumulado, iter)`. -/
theorem tamanos_subpasos_sum (paso : K) (hp : 0 < paso) (acumulado : K) (ha : 0 ≤ acumulado)
    (iter : Nat) (hi : iter ≤ 120) :
    (tamanos_subpasos paso acumulado iter).sum = min acumulado (((120 - iter : ℕ) : K) * paso) := by
  generalize hn : 120 - iter = n
  induction n generalizing acumulado iter with
  | zero =>
    have hi' : ¬ iter < 120 := by omega
    rw [tamanos_subpasos]
    simp [hi', ha]
  | succ n ih =>
    rw [tamanos_subpasos]
    have hn' : 120 - (iter + 1) = n := by omega
    have hnp : 0 ≤ (n : K) * paso := mul_nonneg (Nat.cast_nonneg n) hp.le
    by_cases hc : acumulado > 0
    · have hi' : iter < 120 := by omega
      simp only [hc, hi', and_self, if_true, List.sum_cons]
      by_cases hle : acumulado ≤ paso
      · rw [min_eq_left hle, sub_self, ih 0 le_rfl (iter + 1) (by omega) hn',
          min_eq_left hnp, add_zero]
        symm
        apply min_eq_left
        push_cast
        nlinarith
      · have hlt : paso < acumulado := not_le.mp hle
        rw [min_eq_right hlt.le, ih (acumulado - paso) (by linarith) (iter + 1) (by omega) hn']
        push_cast
        rw [← min_add_add_left]
        congr 1 <;> ring
    · have h0 : acumulado = 0 := le_antisymm (not_lt.mp hc) ha
      have : 0 ≤ ((n : K) + 1) * paso := by positivity
      simp [hc, h0, this]

end Bucle

end Goldstein

namespace Goldstein

section Bucle

variable {K : Type} [LinearOrderedField K]

/-- The `i`-th substep size is `min(remaining, paso)`, where `remaining` is `acumulado`
minus the sizes of the substeps before it. -/
theorem tamanos_subpasos_getElem (paso : K) (i : Nat) (acumulado : K) (iter : Nat)
    (hi : i < (tamanos_subpasos paso acumulado iter).length) :
    (tamanos_subpasos paso acumulado iter)[i]? =
      some (min (acumulado - ((tamanos_subpasos paso acumulado iter).take i).sum) paso) := by
  induction i generalizing acumulado iter with
  | zero =>
    rw [tamanos_subpasos] at hi ⊢
    by_cases hc : acumulado > 0 ∧ iter < 120
    · simp [hc]
    · simp [hc] at hi
  | succ i ih =>
    rw [tamanos_subpasos] at hi ⊢
    by_cases hc : acumulado > 0 ∧ iter < 120
    · simp only [hc, and_self, if_true, List.length_cons, Nat.add_lt_add_iff_right] at hi
      simp only [hc, and_self, if_true, List.getElem?_cons_succ, List.take_succ_cons,
        List.sum_cons]
      rw [ih _ _ hi, sub_add_eq_sub_sub]
    · simp [hc] at hi

end Bucle

section Nucleo

variable {K : Type} [LinearOrderedField K]

@[simp] theorem actualizar_estela_a {K : Type} (sim : Simulacion K) :
    (actualizar_estela sim).a = sim.a := by
  unfold actualizar_estela; simp only []; split <;> rfl

/-- The integrator reads only the scene, the integrator choice, the parameters, the
particle state, the clock and `dt`; on these and on the cached acceleration its result is
determined by them. -/
theorem avanzar_nucleo (cm : CMath K) (s1 s2 : Simulacion K)
    (he : s1.escena = s2.escena) (hi : s1.integrador = s2.integrador) (hp : s1.p = s2.p)
    (hs : s1.s = s2.s) (ht : s1.t_sim = s2.t_sim) (hd : s1.dt = s2.dt) :
    (avanzar cm s1).escena = (avanzar cm s2).escena ∧
    (avanzar cm s1).integrador = (avanzar cm s2).integrador ∧
    (avanzar cm s1).p = (avanzar cm s2).p ∧
    (avanzar cm s1).s = (avanzar cm s2).s ∧
    (avanzar cm s1).t_sim = (avanzar cm s2).t_sim ∧
    (avanzar cm s1).a = (avanzar cm s2).a := by
  obtain ⟨e1, i1, p1, st1, a1, d1, pa1, es1, t1, rp1, ar1, ra1, ri1, cf1⟩ := s1
  obtain ⟨e2, i2, p2, st2, a2, d2, pa2, es2, t2, rp2, ar2, ra2, ri2, cf2⟩ := s2
  simp only at he hi hp hs ht hd
  subst he hi hp hs ht hd
  cases e1 <;> cases i1 <;> exact ⟨rfl, rfl, rfl, rfl, rfl, rfl⟩

/-- One substep body is one call of the selected integrator with `dt = h`, as far as the
scene, the integrator choice, the parameters, the particle state, the clock and the
cached acceleration go. -/
theorem cuerpo_subpaso_nucleo (cm : CMath K) (h : K) (sim : Simulacion K) :
    (cuerpo_subpaso cm h sim).escena = (avanzar cm { sim with dt := h }).escena ∧
    (cuerpo_subpaso cm h sim).integrador = (avanzar cm { sim with dt := h }).integrador ∧
    (cuerpo_subpaso cm h sim).p = (avanzar cm { sim with dt := h }).p ∧
    (cuerpo_subpaso cm h sim).s = (avanzar cm { sim with dt := h }).s ∧
    (cuerpo_subpaso cm h sim).t_sim = (avanzar cm { sim with dt := h }).t_sim ∧
    (cuerpo_subpaso cm h sim).a = (avanzar cm { sim with dt := h }).a := by
  unfold cuerpo_subpaso
  simp only [actualizar_estela_escena, actualizar_estela_integrador, actualizar_estela_p,
    actualizar_estela_s, actualizar_estela_t_sim, actualizar_estela_a]
  split <;> exact ⟨rfl, rfl, rfl, rfl, rfl, rfl⟩

@[simp] theorem avanzar_integrador (cm : CMath K) (sim : Simulacion K) :
    (avanzar cm sim).integrador = sim.integrador := by
  unfold avanzar
  split
  · rfl
  · unfold paso_rk4; simp only []; split <;> rfl

/-- The run of substeps and the run of bare integrator calls with the same step sizes agree
on the scene, the integrator choice, the parameters, the particle state and the clock. -/
theorem subpasos_pasos (cm : CMath K) (hs : List K) (s1 s2 : Simulacion K)
    (he : s1.escena = s2.escena) (hi : s1.integrador = s2.integrador) (hp : s1.p = s2.p)
    (hst : s1.s = s2.s) (ht : s1.t_sim = s2.t_sim) :
    (subpasos cm hs s1).s
        = (pasos cm (hs.map (fun h => (s2.integrador, h))) s2).s ∧
    (subpasos cm hs s1).t_sim
        = (pasos cm (hs.map (fun h => (s2.integrador, h))) s2).t_sim := by
  induction hs generalizing s1 s2 with
  | nil => exact ⟨hst, ht⟩
  | cons h hs ih =>
    obtain ⟨c1, c2, c3, c4, c5, -⟩ := cuerpo_subpaso_nucleo cm h s1
    obtain ⟨n1, n2, n3, n4, n5, -⟩ := avanzar_nucleo cm { s1 with dt := h }
      { s2 with integrador := s2.integrador, dt := h } he hi hp hst ht rfl
    have hint : (avanzar cm { s2 with integrador := s2.integrador, dt := h }).integrador
        = s2.integrador := by simp
    have := ih (cuerpo_subpaso cm h s1)
      (avanzar cm { s2 with integrador := s2.integrador, dt := h })
      (c1.trans n1) (c2.trans n2) (c3.trans n3) (c4.trans n4) (c5.trans n5)
    rw [hint] at this
    simpa [pasos] using this

/-- One call of `actualizar_estela` appends one position, up to the bound 900. -/
theorem actualizar_estela_length {K : Type} (sim : Simulacion K) :
    (actualizar_estela sim).estela.length = min 900 (sim.estela.length + 1) := by
  unfold actualizar_estela
  simp only []
  split
  · next h =>
    simp only [List.length_drop, List.length_append, List.length_singleton] at h ⊢
    omega
  · next h =>
    simp only [List.length_append, List.length_singleton] at h ⊢
    omega

/-- Each substep appends one position to the trail. -/
theorem cuerpo_subpaso_estela_length (cm : CMath K) (h : K) (sim : Simulacion K) :
    (cuerpo_subpaso cm h sim).estela.length = min 900 (sim.estela.length + 1) := by
  have hav : (avanzar cm { sim with dt := h }).estela = sim.estela := by
    unfold avanzar
    split
    · rfl
    · unfold paso_rk4; simp only []; split <;> rfl
  unfold cuerpo_subpaso
  rw [actualizar_estela_length]
  simp only []
  split
  · simp only [hav]
  · rw [hav]

/-- A run of substeps appends one position per substep to a trail of at most 900. -/
theorem subpasos_estela_length (cm : CMath K) (hs : List K) (sim : Simulacion K) :
    (subpasos cm hs sim).estela.length
      = if hs = [] then sim.estela.length else min 900 (sim.estela.length + hs.length) := by
  induction hs generalizing sim with
  | nil => simp
  | cons h hs ih =>
    rw [subpasos_cons, ih, cuerpo_subpaso_estela_length]
    by_cases hn : hs = []
    · subst hn; simp
    · simp only [hn, if_false, List.length_cons, reduceCtorEq]
      omega

end Nucleo

/-- C6 (substep cap).  For every frame delta and every nominal step `paso > 0` the substep
loop (a total function) exits with `iter = min(120, ⌈delta/paso⌉)` when `delta > 0` and
`iter = 0` when `delta ≤ 0`, having run exactly that many substep bodies; with `delta = 5`
and `paso = 1/120` it runs exactly 120 substeps and exits with `acumulado = 4` still
unspent.  Each substep body is one integrator step: it leaves the particle state and the
cached acceleration that one call of the selected integrator with `dt = h` leaves and
advances `t_sim` by `h`; so the particle state after the loop is the one after that many
successive integrator calls, `t_sim` has advanced by the sum of the step sizes (by `1` in
the 5 s example), and the trail holds one more position per substep (up to its bound). -/
theorem C6_tope_subpasos {K : Type} [LinearOrderedField K] [FloorRing K] (cm : CMath K)
    (delta paso : K) (hp : 0 < paso) (sim : Simulacion K) :
    (bucle_subpasos cm paso delta 0 sim).2.1
        = (if 0 < delta then min 120 ⌈delta / paso⌉₊ else 0) ∧
    (bucle_subpasos cm paso delta 0 sim).2.2
        = subpasos cm (tamanos_subpasos paso delta 0) sim ∧
    (tamanos_subpasos paso delta 0).length
        = (if 0 < delta then min 120 ⌈delta / paso⌉₊ else 0) ∧
    (bucle_subpasos cm (1 / 120) 5 0 sim).2.1 = 120 ∧
    (bucle_subpasos cm (1 / 120) 5 0 sim).1 = 4 ∧
    (∀ (h : K) (s : Simulacion K),
      (cuerpo_subpaso cm h s).s = (avanzar cm { s with dt := h }).s ∧
      (cuerpo_subpaso cm h s).a = (avanzar cm { s with dt := h }).a ∧
      (cuerpo_subpaso cm h s).t_sim = s.t_sim + h) ∧
    (bucle_subpasos cm paso delta 0 sim).2.2.s
        = (pasos cm ((tamanos_subpasos paso delta 0).map (fun h => (sim.integrador, h)))
            sim).s ∧
    (bucle_subpasos cm paso delta 0 sim).2.2.t_sim
        = sim.t_sim + (tamanos_subpasos paso delta 0).sum ∧
    (bucle_subpasos cm paso delta 0 sim).2.2.estela.length
        = (if 0 < delta then
            min 900 (sim.estela.length + min 120 ⌈delta / paso⌉₊)
          else sim.estela.length) ∧
    (bucle_subpasos cm (1 / 120) 5 0 sim).2.2.t_sim = sim.t_sim + 1 := by
  have hlen : ∀ (d q : K), 0 < q → (tamanos_subpasos q d 0).length
      = (if 0 < d then min 120 ⌈d / q⌉₊ else 0) := by
    intro d q hq
    rw [tamanos_subpasos_length q hq]
    split_ifs with h
    · rfl
    · have : ⌈d / q⌉₊ = 0 := by
        rw [Nat.ceil_eq_zero]
        exact div_nonpos_of_nonpos_of_nonneg (not_lt.mp h) hq.le
      simp [this]
  have h5 : ⌈(5 : K) / (1 / 120)⌉₊ = 600 := by
    have : (5 : K) / (1 / 120) = ((600 : ℕ) : K) := by norm_num
    rw [this, Nat.ceil_natCast]
  refine ⟨?_, ?_, hlen delta paso hp, ?_, ?_, ?_, ?_, ?_, ?_, ?_⟩
  · rw [bucle_subpasos_eq, zero_add]
    exact hlen delta paso hp
  · rw [bucle_subpasos_eq]
  · rw [bucle_subpasos_eq, zero_add, hlen 5 (1 / 120) (by norm_num), if_pos (by norm_num), h5]
    rfl
  · rw [bucle_subpasos_eq, tamanos_subpasos_sum (1 / 120) (by norm_num) 5 (by norm_num) 0
      (by norm_num)]
    norm_num
  · intro h s
    obtain ⟨-, -, -, c4, -, c6⟩ := cuerpo_subpaso_nucleo cm h s
    exact ⟨c4, c6, cuerpo_subpaso_t_sim cm h s⟩
  · rw [bucle_subpasos_eq]
    exact (subpasos_pasos cm _ sim sim rfl rfl rfl rfl rfl).1
  · rw [bucle_subpasos_eq, subpasos_t_sim]
  · rw [bucle_subpasos_eq, subpasos_estela_length]
    by_cases hd : 0 < delta
    · have hne : tamanos_subpasos paso delta 0 ≠ [] := by
        intro h0
        have hl := hlen delta paso hp
        rw [h0, if_pos hd] at hl
        have hc : 1 ≤ ⌈delta / paso⌉₊ := Nat.one_le_iff_ne_zero.mpr
          (by rw [Ne, Nat.ceil_eq_zero]; exact not_le.mpr (div_pos hd hp))
        simp only [List.length_nil] at hl
        omega
      rw [if_neg hne, if_pos hd, hlen delta paso hp, if_pos hd]
    · have h0 : tamanos_subpasos paso delta 0 = [] := by
        rw [tamanos_subpasos, if_neg (by intro h; exact hd h.1)]
      rw [if_pos h0, if_neg hd]
  · rw [bucle_subpasos_eq, subpasos_t_sim, tamanos_subpasos_sum (1 / 120) (by norm_num) 5
      (by norm_num) 0 (by norm_num)]
    norm_num

/-- Witness for C6: a frame delta of `1/50` s at the nominal step `1/120` s takes
`⌈12/5⌉ = 3` substeps, and the 5 s frame advances the clock of the initial simulation by
`1` only. -/
theorem C6_tope_subpasos_witness :
    (bucle_subpasos ⟨Real.sqrt, Real.sin⟩ (1 / 120) (1 / 50) 0 (simInicial : Simulacion ℝ)).2.1
      = (if (0 : ℝ) < 1 / 50 then min 120 ⌈(1 / 50 : ℝ) / (1 / 120)⌉₊ else 0) ∧
    (bucle_subpasos ⟨Real.sqrt, Real.sin⟩ (1 / 120) 5 0 (simInicial : Simulacion ℝ)).2.1 = 120 ∧
    (bucle_subpasos ⟨Real.sqrt, Real.sin⟩ (1 / 120) 5 0
        (simInicial : Simulacion ℝ)).2.2.t_sim = (simInicial : Simulacion ℝ).t_sim + 1 :=
  have h := C6_tope_subpasos ⟨Real.sqrt, Real.sin⟩ (1 / 50 : ℝ) (1 / 120) (by norm_num)
    simInicial
  ⟨h.1, h.2.2.2.1, h.2.2.2.2.2.2.2.2.2⟩

/-- C7 (substep sizes).  For every frame delta `≥ 0` and nominal step `paso > 0`, the loop
is the run of substeps whose `i`-th size is `min(remaining, paso)`, `remaining` being
`delta` minus the earlier sizes; the sizes add up to `min(delta, 120·paso)`, and that is the
amount by which the loop advances `t_sim`. -/
theorem C7_tamano_subpasos {K : Type} [LinearOrderedField K] (cm : CMath K)
    (delta paso : K) (hd : 0 ≤ delta) (hp : 0 < paso) (sim : Simulacion K) :
    (bucle_subpasos cm paso delta 0 sim).2.2
        = subpasos cm (tamanos_subpasos paso delta 0) sim ∧
    (∀ i : Nat, i < (tamanos_subpasos paso delta 0).length →
      (tamanos_subpasos paso delta 0)[i]? =
        some (min (delta - ((tamanos_subpasos paso delta 0).take i).sum) paso)) ∧
    (tamanos_subpasos paso delta 0).sum = min delta (120 * paso) ∧
    (bucle_subpasos cm paso delta 0 sim).2.2.t_sim = sim.t_sim + min delta (120 * paso) := by
  have hsum : (tamanos_subpasos paso delta 0).sum = min delta (120 * paso) := by
    rw [tamanos_subpasos_sum paso hp delta hd 0 (by norm_num)]
    norm_num
  refine ⟨?_, fun i hi => tamanos_subpasos_getElem paso i delta 0 hi, hsum, ?_⟩
  · rw [bucle_subpasos_eq]
  · rw [bucle_subpasos_eq, subpasos_t_sim, hsum]

/-- Witness for C7: a frame delta of `1/50` s at the nominal step `1/120` s advances the
simulation clock by `1/50`. -/
theorem C7_tamano_subpasos_witness :
    (tamanos_subpasos (1 / 120 : ℝ) (1 / 50) 0).sum = min (1 / 50) (120 * (1 / 120)) ∧
    (bucle_subpasos ⟨Real.sqrt, Real.sin⟩ (1 / 120) (1 / 50) 0
        (simInicial : Simulacion ℝ)).2.2.t_sim
      = (simInicial : Simulacion ℝ).t_sim + min (1 / 50) (120 * (1 / 120)) :=
  have h := C7_tamano_subpasos ⟨Real.sqrt, Real.sin⟩ (1 / 50 : ℝ) (1 / 120) (by norm_num)
    (by norm_num) simInicial
  ⟨h.2.2.1, h.2.2.2⟩

end Goldstein

namespace Goldstein

/-! ## The trail -/

section Estela

variable {K : Type}

/-- The trail after one call: the old trail with the position appended, cut to its last
900 entries. -/
theorem actualizar_estela_estela (sim : Simulacion K) :
    (actualizar_estela sim).estela
      = (sim.estela ++ [sim.s.r]).drop ((sim.estela ++ [sim.s.r]).length - 900) := by
  unfold actualizar_estela
  simp only []
  split
  · simp
  · next h =>
    have : (sim.estela ++ [sim.s.r]).length - 900 = 0 := by omega
    rw [this, List.drop_zero]

/-- Cutting to the last 900 entries may be postponed until after an append. -/
theorem drop_append_drop (l1 l2 : List (Vec2 K)) :
    (l1.drop (l1.length - 900) ++ l2).drop ((l1.drop (l1.length - 900) ++ l2).length - 900)
      = (l1 ++ l2).drop ((l1 ++ l2).length - 900) := by
  have h1 : l1.drop (l1.length - 900) ++ l2 = (l1 ++ l2).drop (l1.length - 900) := by
    rw [List.drop_append_of_le_length (by omega)]
  rw [h1, List.drop_drop, List.length_drop, List.length_append]
  have hn : l1.length - 900 + (l1.length + l2.length - (l1.length - 900) - 900)
      = l1.length + l2.length - 900 := by omega
  rw [hn]

/-- The trail after a run of calls, from a trail of at most 900 entries. -/
theorem registrar_estela (ps : List (Vec2 K)) (sim : Simulacion K)
    (h : sim.estela.length ≤ 900) :
    (registrar ps sim).estela = (sim.estela ++ ps).drop ((sim.estela ++ ps).length - 900) := by
  induction ps generalizing sim with
  | nil =>
    have : sim.estela.length - 900 = 0 := by omega
    simp [registrar, this]
  | cons p ps ih =>
    have hstep : registrar (p :: ps) sim
        = registrar ps (actualizar_estela { sim with s := { sim.s with r := p } }) := rfl
    have hlen : (actualizar_estela { sim with s := { sim.s with r := p } }).estela.length
        ≤ 900 := by
      rw [actualizar_estela_estela, List.length_drop]
      omega
    rw [hstep, ih _ hlen, actualizar_estela_estela]
    simp only []
    rw [drop_append_drop, List.append_assoc, List.singleton_append]

end Estela

/-- C8 (history eviction).  Starting from an empty trail, after the calls of
`actualizar_estela` that record the positions `ps = p_1..p_n` the trail is the last
`min(n, 900)` of them in their original order; with `n = 1000` it is `p_101..p_1000`; and
after any call, from any prior state, the trail has at most 900 entries. -/
theorem C8_estela_acotada {K : Type} (sim : Simulacion K) (ps : List (Vec2 K))
    (h0 : sim.estela = []) :
    (registrar ps sim).estela = ps.drop (ps.length - 900) ∧
    (registrar ps sim).estela.length = min ps.length 900 ∧
    (ps.length = 1000 → (registrar ps sim).estela = ps.drop 100) ∧
    ∀ sim' : Simulacion K, (actualizar_estela sim').estela.length ≤ 900 := by
  have h := registrar_estela ps sim (by simp [h0])
  rw [h0, List.nil_append] at h
  refine ⟨h, ?_, ?_, ?_⟩
  · rw [h, List.length_drop]; omega
  · intro hn
    rw [h, hn]
  · intro sim'
    rw [actualizar_estela_estela, List.length_drop]
    omega

end Goldstein

namespace Goldstein

/-- Witness for C8: recording the 1000 positions `(0,0), (1,0), .., (999,0)` from the
initial simulation leaves the last 900 of them. -/
theorem C8_estela_acotada_witness :
    (simInicial : Simulacion ℚ).estela = [] ∧
    (registrar (List.map (fun i : ℕ => Vec2.mk (i : ℚ) 0) (List.range 1000)) simInicial).estela
      = (List.map (fun i : ℕ => Vec2.mk (i : ℚ) 0) (List.range 1000)).drop 100 :=
  ⟨rfl, (C8_estela_acotada simInicial
    (List.map (fun i : ℕ => Vec2.mk (i : ℚ) 0) (List.range 1000)) rfl).2.2.1
    (by rw [List.length_map, List.length_range])⟩

/-! ## Key commands -/

/-- C9 (scene switch resets fully).  For every prior simulation state and every scene key
`1..8`, `aplicar_cambios_por_tecla` sets the scene to the one numbered by the key, the
position to `(-0.8, 0.6)`, the velocity to `(1.2, 0.2)`, the cached acceleration to `(0, 0)`,
the trail to empty, `t_sim`, the swept-area accumulator and the area clock to 0 and
`r_previa` to the start position; and for `OsciladorRigidezTiempo`, `NoetherRotacionAreal`
and `NoetherTraslacionPx` the damping is 0 afterwards, whatever it was before. -/
theorem C9_cambio_de_escena {K : Type} [LinearOrderedField K] (sim : Simulacion K) (key : Int)
    (h1 : GLFW_KEY_1 ≤ key) (h8 : key ≤ GLFW_KEY_8) :
    (aplicar_cambios_por_tecla sim key).escena.codigo = key - GLFW_KEY_0 ∧
    (aplicar_cambios_por_tecla sim key).s.r = ⟨-(4 / 5), 3 / 5⟩ ∧
    (aplicar_cambios_por_tecla sim key).s.v = ⟨6 / 5, 1 / 5⟩ ∧
    (aplicar_cambios_por_tecla sim key).a = ⟨0, 0⟩ ∧
    (aplicar_cambios_por_tecla sim key).estela = [] ∧
    (aplicar_cambios_por_tecla sim key).t_sim = 0 ∧
    (aplicar_cambios_por_tecla sim key).area_acumulada = 0 ∧
    (aplicar_cambios_por_tecla sim key).reloj_area = 0 ∧
    (aplicar_cambios_por_tecla sim key).r_previa = ⟨-(4 / 5), 3 / 5⟩ ∧
    ((aplicar_cambios_por_tecla sim key).escena = .OsciladorRigidezTiempo ∨
      (aplicar_cambios_por_tecla sim key).escena = .NoetherRotacionAreal ∨
      (aplicar_cambios_por_tecla sim key).escena = .NoetherTraslacionPx →
        (aplicar_cambios_por_tecla sim key).p.amortiguamiento = 0) := by
  unfold GLFW_KEY_1 at h1
  unfold GLFW_KEY_8 at h8
  interval_cases key
  · have he : (aplicar_cambios_por_tecla sim 49).escena = .Libre := rfl
    refine ⟨rfl, rfl, rfl, rfl, rfl, rfl, rfl, rfl, rfl, ?_⟩
    rw [he]; simp
  · have he : (aplicar_cambios_por_tecla sim 50).escena = .FuerzaConstante := rfl
    refine ⟨rfl, rfl, rfl, rfl, rfl, rfl, rfl, rfl, rfl, ?_⟩
    rw [he]; simp
  · have he : (aplicar_cambios_por_tecla sim 51).escena = .Oscilador := rfl
    refine ⟨rfl, rfl, rfl, rfl, rfl, rfl, rfl, rfl, rfl, ?_⟩
    rw [he]; simp
  · have he : (aplicar_cambios_por_tecla sim 52).escena = .InversaCuadrado := rfl
    refine ⟨rfl, rfl, rfl, rfl, rfl, rfl, rfl, rfl, rfl, ?_⟩
    rw [he]; simp
  · have he : (aplicar_cambios_por_tecla sim 53).escena = .RestriccionCirculo := rfl
    refine ⟨rfl, rfl, rfl, rfl, rfl, rfl, rfl, rfl, rfl, ?_⟩
    rw [he]; simp
  · exact ⟨rfl, rfl, rfl, rfl, rfl, rfl, rfl, rfl, rfl, fun _ => rfl⟩
  · exact ⟨rfl, rfl, rfl, rfl, rfl, rfl, rfl, rfl, rfl, fun _ => rfl⟩
  · exact ⟨rfl, rfl, rfl, rfl, rfl, rfl, rfl, rfl, rfl, fun _ => rfl⟩

/-- Witness for C9: key `7` pressed while the simulation, still with its default damping
`0.15`, has moved away from the start state. -/
theorem C9_cambio_de_escena_witness :
    (paso_rk4 ⟨Real.sqrt, Real.sin⟩ (simInicial : Simulacion ℝ)).p.amortiguamiento = 3 / 20 ∧
    (aplicar_cambios_por_tecla (paso_rk4 ⟨Real.sqrt, Real.sin⟩ (simInicial : Simulacion ℝ))
      55).escena = .NoetherRotacionAreal ∧
    (aplicar_cambios_por_tecla (paso_rk4 ⟨Real.sqrt, Real.sin⟩ (simInicial : Simulacion ℝ))
      55).s.r = ⟨-(4 / 5), 3 / 5⟩ ∧
    (aplicar_cambios_por_tecla (paso_rk4 ⟨Real.sqrt, Real.sin⟩ (simInicial : Simulacion ℝ))
      55).t_sim = 0 ∧
    (aplicar_cambios_por_tecla (paso_rk4 ⟨Real.sqrt, Real.sin⟩ (simInicial : Simulacion ℝ))
      55).p.amortiguamiento = 0 :=
  have h := C9_cambio_de_escena (paso_rk4 ⟨Real.sqrt, Real.sin⟩ (simInicial : Simulacion ℝ))
    55 (by decide) (by decide)
  ⟨rfl, rfl, h.2.1, h.2.2.2.2.2.1, h.2.2.2.2.2.2.2.2.2 (Or.inr (Or.inl rfl))⟩

end Goldstein

namespace Goldstein

section Teclas

variable {K : Type} [LinearOrderedField K]

/-- The increase-step command applies the factor 1.10 and the upper bound only. -/
theorem tecla_arriba_dt (sim : Simulacion K) :
    (aplicar_cambios_por_tecla sim GLFW_KEY_UP).dt = min (sim.dt * (11 / 10)) (1 / 15) := rfl

/-- The decrease-step command applies the factor 0.90 and the lower bound only. -/
theorem tecla_abajo_dt (sim : Simulacion K) :
    (aplicar_cambios_por_tecla sim GLFW_KEY_DOWN).dt = max (sim.dt * (9 / 10)) (1 / 600) := rfl

/-- A substep leaves its own size in `sim.dt`. -/
theorem cuerpo_subpaso_dt (cm : CMath K) (h : K) (sim : Simulacion K) :
    (cuerpo_subpaso cm h sim).dt = h := by
  unfold cuerpo_subpaso
  simp only [actualizar_estela_dt]
  split <;> simp [avanzar] <;> split <;> simp

end Teclas

/-- The substeps of a frame of `7/750` s at the nominal step `1/120` s. -/
theorem tamanos_subpasos_ejemplo :
    tamanos_subpasos (1 / 120 : ℝ) (7 / 750) 0 = [1 / 120, 1 / 1000] := by
  have hmin1 : min (7 / 750 : ℝ) (1 / 120) = 1 / 120 := min_eq_right (by norm_num)
  have hmin2 : min (1 / 1000 : ℝ) (1 / 120) = 1 / 1000 := min_eq_left (by norm_num)
  rw [tamanos_subpasos, if_pos ⟨by norm_num, by norm_num⟩]
  simp only [hmin1]
  rw [show (7 / 750 : ℝ) - 1 / 120 = 1 / 1000 by norm_num, tamanos_subpasos,
    if_pos ⟨by norm_num, by norm_num⟩]
  simp only [hmin2]
  rw [sub_self, tamanos_subpasos, if_neg (by simp)]

/-- C10, counterexample.  A frame of `7/750` s on the initial simulation (nominal step
`1/120`) takes the substeps `1/120` and `1/1000` and leaves `sim.dt = 1/1000`; the
increase-step command then leaves `dt = 11/10000`, which is not `1.10·dt` clamped into
`[1/600, 1/15]` (that is `1/600`) and lies below `1/600`. -/
theorem C10_paso_fuera_de_rango :
    (actualizar_frame ⟨Real.sqrt, Real.sin⟩ (7 / 750) (simInicial : Simulacion ℝ)).dt
      = 1 / 1000 ∧
    (aplicar_cambios_por_tecla
      (actualizar_frame ⟨Real.sqrt, Real.sin⟩ (7 / 750) (simInicial : Simulacion ℝ))
      GLFW_KEY_UP).dt = 11 / 10000 ∧
    (aplicar_cambios_por_tecla
      (actualizar_frame ⟨Real.sqrt, Real.sin⟩ (7 / 750) (simInicial : Simulacion ℝ))
      GLFW_KEY_UP).dt ≠ acotar (1 / 600) (1 / 15) (11 / 10 *
        (actualizar_frame ⟨Real.sqrt, Real.sin⟩ (7 / 750) (simInicial : Simulacion ℝ)).dt) ∧
    ¬ ((1 : ℝ) / 600 ≤ (aplicar_cambios_por_tecla
      (actualizar_frame ⟨Real.sqrt, Real.sin⟩ (7 / 750) (simInicial : Simulacion ℝ))
      GLFW_KEY_UP).dt) := by
  have hdt : (actualizar_frame ⟨Real.sqrt, Real.sin⟩ (7 / 750)
      (simInicial : Simulacion ℝ)).dt = 1 / 1000 := by
    have hf : actualizar_frame ⟨Real.sqrt, Real.sin⟩ (7 / 750) (simInicial : Simulacion ℝ)
        = (bucle_subpasos ⟨Real.sqrt, Real.sin⟩ (1 / 120) (7 / 750) 0 simInicial).2.2 := rfl
    rw [hf, bucle_subpasos_eq, tamanos_subpasos_ejemplo]
    simp only [subpasos_cons, subpasos_nil, cuerpo_subpaso_dt]
  have hup : (aplicar_cambios_por_tecla
      (actualizar_frame ⟨Real.sqrt, Real.sin⟩ (7 / 750) (simInicial : Simulacion ℝ))
      GLFW_KEY_UP).dt = 11 / 10000 := by
    rw [tecla_arriba_dt, hdt, min_eq_left (by norm_num)]
    norm_num
  refine ⟨hdt, hup, ?_, ?_⟩
  · rw [hup, hdt, acotar, min_eq_left (by norm_num), max_eq_left (by norm_num)]
    norm_num
  · rw [hup]; norm_num

/-- C10 as amended.  For every prior nominal step the increase-step command leaves
`min(1.10·dt, 1/15)` and the decrease-step command leaves `max(0.90·dt, 1/600)`; when the
prior step lies in `[1/600, 1/15]` these are `1.10·dt` and `0.90·dt` clamped into
`[1/600, 1/15]`, so after either command the nominal step lies in `[1/600, 1/15]`. -/
theorem C10_paso_acotado {K : Type} [LinearOrderedField K] (sim : Simulacion K)
    (hlo : 1 / 600 ≤ sim.dt) (hhi : sim.dt ≤ 1 / 15) :
    (aplicar_cambios_por_tecla sim GLFW_KEY_UP).dt
        = acotar (1 / 600) (1 / 15) (11 / 10 * sim.dt) ∧
    (aplicar_cambios_por_tecla sim GLFW_KEY_DOWN).dt
        = acotar (1 / 600) (1 / 15) (9 / 10 * sim.dt) ∧
    1 / 600 ≤ (aplicar_cambios_por_tecla sim GLFW_KEY_UP).dt ∧
    (aplicar_cambios_por_tecla sim GLFW_KEY_UP).dt ≤ 1 / 15 ∧
    1 / 600 ≤ (aplicar_cambios_por_tecla sim GLFW_KEY_DOWN).dt ∧
    (aplicar_cambios_por_tecla sim GLFW_KEY_DOWN).dt ≤ 1 / 15 ∧
    (∀ sim' : Simulacion K, (aplicar_cambios_por_tecla sim' GLFW_KEY_UP).dt
        = min (sim'.dt * (11 / 10)) (1 / 15)) ∧
    (∀ sim' : Simulacion K, (aplicar_cambios_por_tecla sim' GLFW_KEY_DOWN).dt
        = max (sim'.dt * (9 / 10)) (1 / 600)) := by
  have h0 : (0 : K) < 1 / 600 := by norm_num
  have h15 : (1 : K) / 600 ≤ 1 / 15 := by norm_num
  have hup : (1 : K) / 600 ≤ min (sim.dt * (11 / 10)) (1 / 15) :=
    le_min (by linarith) h15
  have hdown : max (sim.dt * (9 / 10)) (1 / 600) ≤ (1 : K) / 15 :=
    max_le (by linarith) h15
  rw [tecla_arriba_dt, tecla_abajo_dt]
  refine ⟨?_, ?_, hup, min_le_right _ _, le_max_right _ _, hdown,
    fun s => tecla_arriba_dt s, fun s => tecla_abajo_dt s⟩
  · rw [acotar, mul_comm (11 / 10 : K) sim.dt, max_eq_right hup]
  · rw [acotar, mul_comm (9 / 10 : K) sim.dt, min_eq_left (by linarith), max_comm]

/-- Witness for C10 as amended: the initial simulation, whose nominal step is `1/120`. -/
theorem C10_paso_acotado_witness :
    (aplicar_cambios_por_tecla (simInicial : Simulacion ℝ) GLFW_KEY_UP).dt
        = acotar (1 / 600) (1 / 15) (11 / 10 * (1 / 120)) ∧
    (aplicar_cambios_por_tecla (simInicial : Simulacion ℝ) GLFW_KEY_DOWN).dt
        = acotar (1 / 600) (1 / 15) (9 / 10 * (1 / 120)) ∧
    (1 : ℝ) / 600 ≤ (aplicar_cambios_por_tecla (simInicial : Simulacion ℝ) GLFW_KEY_UP).dt :=
  have h := C10_paso_acotado (simInicial : Simulacion ℝ)
    (show (1 : ℝ) / 600 ≤ 1 / 120 by norm_num) (show (1 : ℝ) / 120 ≤ 1 / 15 by norm_num)
  ⟨h.1, h.2.1, h.2.2.1⟩

end Goldstein

namespace Goldstein

/-! ## The circle projection -/

/-- After the projection the velocity is orthogonal to the position. -/
theorem dot_aplicar_restriccion_circulo (sn : ℝ → ℝ) (s : Estado ℝ) (p : Parametros ℝ) :
    dot (aplicar_restriccion_circulo ⟨Real.sqrt, sn⟩ s p).v
      (aplicar_restriccion_circulo ⟨Real.sqrt, sn⟩ s p).r = 0 := by
  unfold aplicar_restriccion_circulo
  simp only []
  split_ifs with h
  · simp [dot]
  · have hpos : 0 < norm ⟨Real.sqrt, sn⟩ s.r := by
      have : (1 : ℝ) / 1000000 ≤ norm ⟨Real.sqrt, sn⟩ s.r := not_lt.mp h
      linarith [show (0 : ℝ) < 1 / 1000000 by norm_num]
    have hsq : norm ⟨Real.sqrt, sn⟩ s.r * norm ⟨Real.sqrt, sn⟩ s.r
        = s.r.x * s.r.x + s.r.y * s.r.y := by
      have := Real.mul_self_sqrt (norm2_nonneg s.r)
      simpa [norm, norm2, dot] using this
    generalize norm ⟨Real.sqrt, sn⟩ s.r = n at hpos hsq
    have hn : n ≠ 0 := hpos.ne'
    have h1 : s.r.x / n * (s.r.x / n) + s.r.y / n * (s.r.y / n) = 1 := by
      field_simp
      linarith
    simp only [dot, Vec2.mul, Vec2.div, Vec2.sub]
    generalize s.r.x / n = a at h1
    generalize s.r.y / n = b at h1
    linear_combination (-(p.radio * (s.v.x * a + s.v.y * b))) * h1

/-- C11 (projection removes the radial velocity).  For every state and every `radio`,
after `aplicar_restriccion_circulo` the velocity is orthogonal to the position; when
`|r| ≥ 1e-6` the result is `r' = (r/|r|)·radio`, `v' = v - n·(v·n)` with `n = r/|r|`, and
when `|r| < 1e-6` it is `r' = (radio, 0)`, `v' = (0, 0)`. -/
theorem C11_proyeccion_quita_radial (s : Estado ℝ) (p : Parametros ℝ) :
    dot (aplicar_restriccion_circulo ⟨Real.sqrt, Real.sin⟩ s p).v
      (aplicar_restriccion_circulo ⟨Real.sqrt, Real.sin⟩ s p).r = 0 ∧
    (1 / 1000000 ≤ norm ⟨Real.sqrt, Real.sin⟩ s.r →
      (aplicar_restriccion_circulo ⟨Real.sqrt, Real.sin⟩ s p).r
          = (s.r.div (norm ⟨Real.sqrt, Real.sin⟩ s.r)).mul p.radio ∧
      (aplicar_restriccion_circulo ⟨Real.sqrt, Real.sin⟩ s p).v
          = s.v.sub ((s.r.div (norm ⟨Real.sqrt, Real.sin⟩ s.r)).mul
              (dot s.v (s.r.div (norm ⟨Real.sqrt, Real.sin⟩ s.r))))) ∧
    (norm ⟨Real.sqrt, Real.sin⟩ s.r < 1 / 1000000 →
      (aplicar_restriccion_circulo ⟨Real.sqrt, Real.sin⟩ s p).r = ⟨p.radio, 0⟩ ∧
      (aplicar_restriccion_circulo ⟨Real.sqrt, Real.sin⟩ s p).v = ⟨0, 0⟩) := by
  refine ⟨dot_aplicar_restriccion_circulo Real.sin s p, ?_, ?_⟩
  · intro h
    unfold aplicar_restriccion_circulo
    simp only [if_neg (not_lt.mpr h), and_self]
  · intro h
    unfold aplicar_restriccion_circulo
    simp only [if_pos h, and_self]

/-- Witness for C11: `r = (3, 4)` of norm 5, `v = (1, 0)`, default parameters
(`radio = 5/4`); and the degenerate state `r = (0, 0)`. -/
theorem C11_proyeccion_quita_radial_witness :
    (1 : ℝ) / 1000000 ≤ norm ⟨Real.sqrt, Real.sin⟩ (⟨3, 4⟩ : Vec2 ℝ) ∧
    (aplicar_restriccion_circulo ⟨Real.sqrt, Real.sin⟩ (⟨⟨3, 4⟩, ⟨1, 0⟩⟩ : Estado ℝ)
        Parametros.porDefecto).r
      = ((⟨3, 4⟩ : Vec2 ℝ).div (norm ⟨Real.sqrt, Real.sin⟩ (⟨3, 4⟩ : Vec2 ℝ))).mul
          (Parametros.porDefecto : Parametros ℝ).radio ∧
    norm ⟨Real.sqrt, Real.sin⟩ (⟨0, 0⟩ : Vec2 ℝ) < 1 / 1000000 ∧
    (aplicar_restriccion_circulo ⟨Real.sqrt, Real.sin⟩ (⟨⟨0, 0⟩, ⟨1, 0⟩⟩ : Estado ℝ)
        Parametros.porDefecto).v = ⟨0, 0⟩ :=
  have h5 : norm ⟨Real.sqrt, Real.sin⟩ (⟨3, 4⟩ : Vec2 ℝ) = 5 := by
    show Real.sqrt (3 * 3 + 4 * 4) = 5
    rw [show (3 * 3 + 4 * 4 : ℝ) = 5 * 5 by norm_num]
    exact Real.sqrt_mul_self (by norm_num)
  have h0 : norm ⟨Real.sqrt, Real.sin⟩ (⟨0, 0⟩ : Vec2 ℝ) = 0 := by
    show Real.sqrt (0 * 0 + 0 * 0) = 0
    simp
  have ha : (1 : ℝ) / 1000000 ≤ norm ⟨Real.sqrt, Real.sin⟩ (⟨3, 4⟩ : Vec2 ℝ) := by
    rw [h5]; norm_num
  have hb : norm ⟨Real.sqrt, Real.sin⟩ (⟨0, 0⟩ : Vec2 ℝ) < 1 / 1000000 := by
    rw [h0]; norm_num
  ⟨ha,
   ((C11_proyeccion_quita_radial ⟨⟨3, 4⟩, ⟨1, 0⟩⟩ Parametros.porDefecto).2.1 ha).1,
   hb,
   ((C11_proyeccion_quita_radial ⟨⟨0, 0⟩, ⟨1, 0⟩⟩ Parametros.porDefecto).2.2 hb).2⟩

end Goldstein

namespace Goldstein

/-! ## Parameters along any run of the program -/

section Parametros

variable {K : Type} [LinearOrderedField K]

/-- A key that none of the branches of the handler tests for leaves the simulation as it
is. -/
theorem aplicar_cambios_por_tecla_otra (sim : Simulacion K) (key : Int)
    (h1 : ¬ (GLFW_KEY_1 ≤ key ∧ key ≤ GLFW_KEY_8)) (hI : key ≠ GLFW_KEY_I)
    (hR : key ≠ GLFW_KEY_R) (hS : key ≠ GLFW_KEY_SPACE) (hU : key ≠ GLFW_KEY_UP)
    (hD : key ≠ GLFW_KEY_DOWN) (hRi : key ≠ GLFW_KEY_RIGHT) (hL : key ≠ GLFW_KEY_LEFT) :
    aplicar_cambios_por_tecla sim key = sim := by
  unfold aplicar_cambios_por_tecla
  simp only [if_neg h1, if_neg hI, if_neg hR, if_neg hS, if_neg hU, if_neg hD, if_neg hRi,
    if_neg hL]

/-- What a key command can do to the parameters: `m`, `g`, `radio`, `eps_k`, `omega_k` are
never touched, `k` is kept or scaled and clamped on one side, the damping is kept or set
to 0. -/
theorem aplicar_cambios_por_tecla_p (sim : Simulacion K) (key : Int) :
    (aplicar_cambios_por_tecla sim key).p.m = sim.p.m ∧
    (aplicar_cambios_por_tecla sim key).p.g = sim.p.g ∧
    (aplicar_cambios_por_tecla sim key).p.radio = sim.p.radio ∧
    (aplicar_cambios_por_tecla sim key).p.eps_k = sim.p.eps_k ∧
    (aplicar_cambios_por_tecla sim key).p.omega_k = sim.p.omega_k ∧
    ((aplicar_cambios_por_tecla sim key).p.k = sim.p.k ∨
      (aplicar_cambios_por_tecla sim key).p.k = min (sim.p.k * (11 / 10)) 50 ∨
      (aplicar_cambios_por_tecla sim key).p.k = max (sim.p.k * (9 / 10)) (1 / 50)) ∧
    ((aplicar_cambios_por_tecla sim key).p.amortiguamiento = sim.p.amortiguamiento ∨
      (aplicar_cambios_por_tecla sim key).p.amortiguamiento = 0) := by
  by_cases h1 : GLFW_KEY_1 ≤ key ∧ key ≤ GLFW_KEY_8
  · obtain ⟨a, b⟩ := h1
    unfold GLFW_KEY_1 at a
    unfold GLFW_KEY_8 at b
    interval_cases key
    all_goals first
      | exact ⟨rfl, rfl, rfl, rfl, rfl, Or.inl rfl, Or.inl rfl⟩
      | exact ⟨rfl, rfl, rfl, rfl, rfl, Or.inl rfl, Or.inr rfl⟩
  by_cases hI : key = GLFW_KEY_I
  · subst hI; exact ⟨rfl, rfl, rfl, rfl, rfl, Or.inl rfl, Or.inl rfl⟩
  by_cases hR : key = GLFW_KEY_R
  · subst hR; exact ⟨rfl, rfl, rfl, rfl, rfl, Or.inl rfl, Or.inl rfl⟩
  by_cases hS : key = GLFW_KEY_SPACE
  · subst hS; exact ⟨rfl, rfl, rfl, rfl, rfl, Or.inl rfl, Or.inl rfl⟩
  by_cases hU : key = GLFW_KEY_UP
  · subst hU; exact ⟨rfl, rfl, rfl, rfl, rfl, Or.inl rfl, Or.inl rfl⟩
  by_cases hD : key = GLFW_KEY_DOWN
  · subst hD; exact ⟨rfl, rfl, rfl, rfl, rfl, Or.inl rfl, Or.inl rfl⟩
  by_cases hRi : key = GLFW_KEY_RIGHT
  · subst hRi; exact ⟨rfl, rfl, rfl, rfl, rfl, Or.inr (Or.inl rfl), Or.inl rfl⟩
  by_cases hL : key = GLFW_KEY_LEFT
  · subst hL; exact ⟨rfl, rfl, rfl, rfl, rfl, Or.inr (Or.inr rfl), Or.inl rfl⟩
  rw [aplicar_cambios_por_tecla_otra sim key h1 hI hR hS hU hD hRi hL]
  exact ⟨rfl, rfl, rfl, rfl, rfl, Or.inl rfl, Or.inl rfl⟩

@[simp] theorem cuerpo_subpaso_p (cm : CMath K) (h : K) (sim : Simulacion K) :
    (cuerpo_subpaso cm h sim).p = sim.p := by
  unfold cuerpo_subpaso
  simp only [actualizar_estela_p]
  split <;> simp

@[simp] theorem cuerpo_subpaso_escena (cm : CMath K) (h : K) (sim : Simulacion K) :
    (cuerpo_subpaso cm h sim).escena = sim.escena := by
  unfold cuerpo_subpaso
  simp only [actualizar_estela_escena]
  split <;> simp

@[simp] theorem subpasos_p (cm : CMath K) (hs : List K) (sim : Simulacion K) :
    (subpasos cm hs sim).p = sim.p := by
  induction hs generalizing sim with
  | nil => rfl
  | cons h hs ih => rw [subpasos_cons, ih, cuerpo_subpaso_p]

@[simp] theorem subpasos_escena (cm : CMath K) (hs : List K) (sim : Simulacion K) :
    (subpasos cm hs sim).escena = sim.escena := by
  induction hs generalizing sim with
  | nil => rfl
  | cons h hs ih => rw [subpasos_cons, ih, cuerpo_subpaso_escena]

/-- The frame update does not touch the parameters. -/
@[simp] theorem actualizar_frame_p (cm : CMath K) (dt_real : K) (sim : Simulacion K) :
    (actualizar_frame cm dt_real sim).p = sim.p := by
  unfold actualizar_frame
  split
  · rw [bucle_subpasos_eq]; simp
  · rfl

/-- The diagnostic print does not touch the parameters. -/
@[simp] theorem imprimir_estado_si_toca_p (sim : Simulacion K) (t_actual : K) :
    (imprimir_estado_si_toca sim t_actual).p = sim.p := by
  unfold imprimir_estado_si_toca
  simp only []
  split_ifs <;> rfl

/-- What one event can do to the parameters. -/
theorem aplicar_evento_p (cm : CMath K) (sim : Simulacion K) (ev : Evento K) :
    (aplicar_evento cm sim ev).p.m = sim.p.m ∧
    (aplicar_evento cm sim ev).p.radio = sim.p.radio ∧
    ((aplicar_evento cm sim ev).p.k = sim.p.k ∨
      (aplicar_evento cm sim ev).p.k = min (sim.p.k * (11 / 10)) 50 ∨
      (aplicar_evento cm sim ev).p.k = max (sim.p.k * (9 / 10)) (1 / 50)) ∧
    ((aplicar_evento cm sim ev).p.amortiguamiento = sim.p.amortiguamiento ∨
      (aplicar_evento cm sim ev).p.amortiguamiento = 0) := by
  cases ev with
  | tecla key =>
    obtain ⟨h1, -, h3, -, -, h6, h7⟩ := aplicar_cambios_por_tecla_p sim key
    exact ⟨h1, h3, h6, h7⟩
  | frame dt_real t_actual =>
    simp [aplicar_evento]

theorem ejecutar_snoc (cm : CMath K) (evs : List (Evento K)) (ev : Evento K)
    (sim : Simulacion K) :
    ejecutar cm (evs ++ [ev]) sim = aplicar_evento cm (ejecutar cm evs sim) ev := by
  simp [ejecutar, List.foldl_append]

end Parametros

end Goldstein

namespace Goldstein

/-- C12 (parameter invariant).  In every state reached from the default-constructed, reset
simulation by any sequence of key commands and frame updates (substeps of either
integrator), the mass and the constraint radius are strictly positive and the stiffness
satisfies `0.02 ≤ k ≤ 50`. -/
theorem C12_parametros_invariantes {K : Type} [LinearOrderedField K] (cm : CMath K)
    (evs : List (Evento K)) :
    0 < (ejecutar cm evs (simInicial : Simulacion K)).p.m ∧
    0 < (ejecutar cm evs (simInicial : Simulacion K)).p.radio ∧
    1 / 50 ≤ (ejecutar cm evs (simInicial : Simulacion K)).p.k ∧
    (ejecutar cm evs (simInicial : Simulacion K)).p.k ≤ 50 := by
  induction evs using List.reverseRecOn with
  | nil =>
    show (0 : K) < 1 ∧ (0 : K) < 5 / 4 ∧ (1 / 50 : K) ≤ 2 ∧ (2 : K) ≤ 50
    norm_num
  | append_singleton evs ev ih =>
    obtain ⟨im, ir, ilo, ihi⟩ := ih
    obtain ⟨h1, h2, h3, -⟩ := aplicar_evento_p cm (ejecutar cm evs simInicial) ev
    rw [ejecutar_snoc, h1, h2]
    refine ⟨im, ir, ?_⟩
    rcases h3 with h | h | h <;> rw [h]
    · exact ⟨ilo, ihi⟩
    · exact ⟨le_min (by linarith) (by norm_num), min_le_right _ _⟩
    · exact ⟨le_max_right _ _, max_le (by linarith) (by norm_num)⟩

/-- From a state with damping 0, every run of events ends with damping 0. -/
theorem ejecutar_amortiguamiento_cero {K : Type} [LinearOrderedField K] (cm : CMath K)
    (evs : List (Evento K)) (sim : Simulacion K) (h0 : sim.p.amortiguamiento = 0) :
    (ejecutar cm evs sim).p.amortiguamiento = 0 := by
  induction evs using List.reverseRecOn with
  | nil => exact h0
  | append_singleton evs ev ih =>
    rw [ejecutar_snoc]
    rcases (aplicar_evento_p cm (ejecutar cm evs sim) ev).2.2.2 with h | h
    · rw [h]; exact ih
    · exact h

/-- C18 (damping is never restored).  No event (key command or frame update) and no
integrator step changes the damping coefficient to anything but 0; so once key `6`, `7` or
`8` (codes 54, 55, 56) has been handled the damping is 0 after every later run of events,
resets and scene changes included, and the forces of `FuerzaConstante` and `Oscilador`
computed with the parameters of such a state are `(0, -m·g)` and `-k·r`, without drag. -/
theorem C18_amortiguamiento_no_vuelve {K : Type} [LinearOrderedField K] (cm : CMath K)
    (sim : Simulacion K) (key : Int) (hkey : key = 54 ∨ key = 55 ∨ key = 56)
    (evs : List (Evento K)) :
    (ejecutar cm evs (aplicar_cambios_por_tecla sim key)).p.amortiguamiento = 0 ∧
    (∀ (s : Simulacion K) (ev : Evento K),
      (aplicar_evento cm s ev).p.amortiguamiento = s.p.amortiguamiento ∨
      (aplicar_evento cm s ev).p.amortiguamiento = 0) ∧
    (∀ s : Simulacion K,
      (paso_euler_semimplicito cm s).p.amortiguamiento = s.p.amortiguamiento ∧
      (paso_rk4 cm s).p.amortiguamiento = s.p.amortiguamiento) ∧
    (∀ (st : Estado K) (t : K),
      fuerza cm st .FuerzaConstante (ejecutar cm evs (aplicar_cambios_por_tecla sim key)).p t
        = ⟨0, -((ejecutar cm evs (aplicar_cambios_por_tecla sim key)).p.m
            * (ejecutar cm evs (aplicar_cambios_por_tecla sim key)).p.g)⟩ ∧
      fuerza cm st .Oscilador (ejecutar cm evs (aplicar_cambios_por_tecla sim key)).p t
        = st.r.mul (-(ejecutar cm evs (aplicar_cambios_por_tecla sim key)).p.k)) := by
  have hkey0 : (aplicar_cambios_por_tecla sim key).p.amortiguamiento = 0 := by
    rcases hkey with h | h | h <;> subst h <;> rfl
  have h0 := ejecutar_amortiguamiento_cero cm evs _ hkey0
  refine ⟨h0, fun s ev => (aplicar_evento_p cm s ev).2.2.2, fun s => ⟨?_, ?_⟩, fun st t => ?_⟩
  · rw [paso_euler_semimplicito_p]
  · rw [paso_rk4_p]
  · generalize (ejecutar cm evs (aplicar_cambios_por_tecla sim key)).p = p at h0
    constructor
    · simp [fuerza, Vec2.add, Vec2.mul, h0]
    · simp [fuerza, Vec2.add, Vec2.mul, h0]

/-- Witness for C18: from the initial simulation (damping `0.15`), key `7`, then a reset
(`R`), a frame of `1/60` s and key `2`: the damping is still 0 in scene `FuerzaConstante`. -/
theorem C18_amortiguamiento_no_vuelve_witness :
    (simInicial : Simulacion ℝ).p.amortiguamiento = 3 / 20 ∧
    (ejecutar ⟨Real.sqrt, Real.sin⟩
      [Evento.tecla GLFW_KEY_R, Evento.frame (1 / 60) 1, Evento.tecla 50]
      (aplicar_cambios_por_tecla (simInicial : Simulacion ℝ) 55)).p.amortiguamiento = 0 :=
  ⟨rfl, (C18_amortiguamiento_no_vuelve ⟨Real.sqrt, Real.sin⟩ (simInicial : Simulacion ℝ) 55
    (Or.inr (Or.inl rfl))
    [Evento.tecla GLFW_KEY_R, Evento.frame (1 / 60) 1, Evento.tecla 50]).1⟩

end Goldstein

namespace Goldstein

/-! ## The nominal step across frames -/

section Frames

variable {K : Type} [LinearOrderedField K]

@[simp] theorem avanzar_pausado (cm : CMath K) (sim : Simulacion K) :
    (avanzar cm sim).pausado = sim.pausado := by
  unfold avanzar
  split
  · rfl
  · unfold paso_rk4; simp only []; split <;> rfl

@[simp] theorem cuerpo_subpaso_pausado (cm : CMath K) (h : K) (sim : Simulacion K) :
    (cuerpo_subpaso cm h sim).pausado = sim.pausado := by
  unfold cuerpo_subpaso
  simp only [actualizar_estela_pausado]
  split <;> simp

@[simp] theorem subpasos_pausado (cm : CMath K) (hs : List K) (sim : Simulacion K) :
    (subpasos cm hs sim).pausado = sim.pausado := by
  induction hs generalizing sim with
  | nil => rfl
  | cons h hs ih => rw [subpasos_cons, ih, cuerpo_subpaso_pausado]

/-- The frame update does not touch the pause flag. -/
@[simp] theorem actualizar_frame_pausado (cm : CMath K) (dt_real : K) (sim : Simulacion K) :
    (actualizar_frame cm dt_real sim).pausado = sim.pausado := by
  unfold actualizar_frame
  split
  · rw [bucle_subpasos_eq]; simp
  · rfl

/-- A frame of a running simulation advances the clock by `min(dt_real, 120·sim.dt)`. -/
theorem actualizar_frame_t_sim (cm : CMath K) (dt_real : K) (sim : Simulacion K)
    (hp : sim.pausado = false) (hd : 0 ≤ dt_real) (hdt : 0 < sim.dt) :
    (actualizar_frame cm dt_real sim).t_sim = sim.t_sim + min dt_real (120 * sim.dt) := by
  unfold actualizar_frame
  rw [hp]
  simp only [Bool.not_false, if_true]
  rw [bucle_subpasos_eq, subpasos_t_sim, tamanos_subpasos_sum sim.dt hdt dt_real hd 0
    (by norm_num)]
  norm_num

end Frames

/-- C13, evaluation.  On the initial simulation (running, nominal step `1/120`) the substep
loop of a frame of `7/750` s leaves `sim.dt = 1/1000`, not `1/120`.  The next frame takes
that value as its nominal step: a frame of 1 s then advances `t_sim` by
`120·(1/1000) = 3/25`, while the same frame taken on the initial simulation advances it by
`1`. -/
theorem C13_dt_sobrescrito :
    (simInicial : Simulacion ℝ).dt = 1 / 120 ∧
    (simInicial : Simulacion ℝ).pausado = false ∧
    (actualizar_frame ⟨Real.sqrt, Real.sin⟩ (7 / 750) (simInicial : Simulacion ℝ)).dt
      = 1 / 1000 ∧
    (actualizar_frame ⟨Real.sqrt, Real.sin⟩ 1
        (actualizar_frame ⟨Real.sqrt, Real.sin⟩ (7 / 750) (simInicial : Simulacion ℝ))).t_sim
      = (actualizar_frame ⟨Real.sqrt, Real.sin⟩ (7 / 750)
          (simInicial : Simulacion ℝ)).t_sim + 3 / 25 ∧
    (actualizar_frame ⟨Real.sqrt, Real.sin⟩ 1 (simInicial : Simulacion ℝ)).t_sim
      = (simInicial : Simulacion ℝ).t_sim + 1 := by
  have hdt : (actualizar_frame ⟨Real.sqrt, Real.sin⟩ (7 / 750)
      (simInicial : Simulacion ℝ)).dt = 1 / 1000 := by
    have hf : actualizar_frame ⟨Real.sqrt, Real.sin⟩ (7 / 750) (simInicial : Simulacion ℝ)
        = (bucle_subpasos ⟨Real.sqrt, Real.sin⟩ (1 / 120) (7 / 750) 0 simInicial).2.2 := rfl
    rw [hf, bucle_subpasos_eq, tamanos_subpasos_ejemplo]
    simp only [subpasos_cons, subpasos_nil, cuerpo_subpaso_dt]
  refine ⟨rfl, rfl, hdt, ?_, ?_⟩
  · rw [actualizar_frame_t_sim _ _ _ (by rw [actualizar_frame_pausado]; rfl) (by norm_num)
      (by rw [hdt]; norm_num), hdt, min_eq_right (by norm_num)]
    norm_num
  · rw [actualizar_frame_t_sim _ _ _ rfl (by norm_num)
      (show (0 : ℝ) < 1 / 120 by norm_num)]
    have : (simInicial : Simulacion ℝ).dt = 1 / 120 := rfl
    rw [this, min_eq_left (by norm_num)]

end Goldstein

namespace Goldstein

/-! ## The inverse-square force -/

/-- The denominator `r2 * sqrt r2` of `fuerza` is the cube of the norm. -/
theorem norm2_mul_sqrt (sn : ℝ → ℝ) (r : Vec2 ℝ) :
    norm2 r * Real.sqrt (norm2 r) = norm ⟨Real.sqrt, sn⟩ r ^ 3 := by
  have h := Real.mul_self_sqrt (norm2_nonneg r)
  simp only [norm]
  nth_rewrite 1 [← h]
  ring

/-- The norm of a scaled vector. -/
theorem norm_mul (sn : ℝ → ℝ) (r : Vec2 ℝ) (c : ℝ) :
    norm ⟨Real.sqrt, sn⟩ (r.mul c) = |c| * norm ⟨Real.sqrt, sn⟩ r := by
  have h0 : 0 ≤ Real.sqrt (norm2 r) := Real.sqrt_nonneg _
  have h := Real.mul_self_sqrt (norm2_nonneg r)
  have e : norm2 (r.mul c) = (c * Real.sqrt (norm2 r)) ^ 2 := by
    have : norm2 (r.mul c) = c ^ 2 * norm2 r := by
      simp only [norm2, dot, Vec2.mul]; ring
    rw [this]
    nth_rewrite 1 [← h]
    ring
  simp only [norm]
  rw [e, Real.sqrt_sq_eq_abs, abs_mul, abs_of_nonneg h0]

/-- The cube of `(1e-4)^(-2/3)` is `10⁸`. -/
theorem cubo_cota_eps : ((1 / 10000 : ℝ) ^ (-(2 / 3) : ℝ)) ^ 3 = 10 ^ 8 := by
  rw [← Real.rpow_natCast, ← Real.rpow_mul (by norm_num)]
  have : (-(2 / 3) : ℝ) * ((3 : ℕ) : ℝ) = ((-2 : ℤ) : ℝ) := by norm_num
  rw [this, Real.rpow_intCast]
  norm_num

/-- The two inverse-square scenes: closed form of the force and its bound. -/
theorem fuerza_inversa_cuadrado (sn : ℝ → ℝ) (s : Estado ℝ) (escena : Escena)
    (p : Parametros ℝ) (t : ℝ)
    (hesc : escena = .InversaCuadrado ∨ escena = .NoetherRotacionAreal) :
    fuerza ⟨Real.sqrt, sn⟩ s escena p t
        = s.r.mul (-p.k / max (norm ⟨Real.sqrt, sn⟩ s.r ^ 3) (1 / 10000)) ∧
    norm ⟨Real.sqrt, sn⟩ (fuerza ⟨Real.sqrt, sn⟩ s escena p t) ^ 3 ≤ 10 ^ 8 * |p.k| ^ 3 := by
  have hF : fuerza ⟨Real.sqrt, sn⟩ s escena p t
      = s.r.mul (-p.k / max (norm ⟨Real.sqrt, sn⟩ s.r ^ 3) (1 / 10000)) := by
    rcases hesc with h | h <;> subst h <;>
      simp only [fuerza, Vec2.add, Vec2.mul, zero_add, norm2_mul_sqrt sn]
  refine ⟨hF, ?_⟩
  rw [hF, norm_mul]
  have hρ : 0 ≤ norm ⟨Real.sqrt, sn⟩ s.r := Real.sqrt_nonneg _
  generalize norm ⟨Real.sqrt, sn⟩ s.r = ρ at hρ
  have hD1 : ρ ^ 3 ≤ max (ρ ^ 3) (1 / 10000) := le_max_left _ _
  have hD2 : (1 : ℝ) / 10000 ≤ max (ρ ^ 3) (1 / 10000) := le_max_right _ _
  generalize max (ρ ^ 3) (1 / 10000) = D at hD1 hD2
  have hD : 0 < D := by linarith [show (0 : ℝ) < 1 / 10000 by norm_num]
  have hρ3 : 0 ≤ ρ ^ 3 := pow_nonneg hρ 3
  have hk : 0 ≤ |p.k| ^ 3 := pow_nonneg (abs_nonneg _) 3
  have hDD : (1 : ℝ) / 100000000 ≤ D * D := by nlinarith
  have hcube : ρ ^ 3 ≤ 10 ^ 8 * D ^ 3 := by nlinarith
  have habs : |(-p.k / D)| = |p.k| / D := by
    rw [abs_div, abs_neg, abs_of_pos hD]
  rw [habs]
  have e : (|p.k| / D * ρ) ^ 3 = |p.k| ^ 3 * ρ ^ 3 / D ^ 3 := by
    field_simp
    ring
  rw [e, div_le_iff₀ (pow_pos hD 3)]
  nlinarith

end Goldstein

namespace Goldstein

/-- C14 (inverse-square guard).  In the `InversaCuadrado` and `NoetherRotacionAreal`
scenes, for every position (the origin included) and every `k`, the denominator
`max(r2·sqrt r2, 1e-4)` of `fuerza` is `max(|r|³, 1e-4)`, at least `1e-4` and positive;
the force is `r·(-k / max(|r|³, 1e-4))`; and its magnitude satisfies `|F|³ ≤ 10⁸·|k|³`,
that is `|F| ≤ |k|·(1e-4)^(-2/3)`, whatever the position. -/
theorem C14_guarda_inversa_cuadrado (s : Estado ℝ) (escena : Escena) (p : Parametros ℝ)
    (t : ℝ) (hesc : escena = .InversaCuadrado ∨ escena = .NoetherRotacionAreal) :
    max (norm2 s.r * Real.sqrt (norm2 s.r)) (1 / 10000)
        = max (norm ⟨Real.sqrt, Real.sin⟩ s.r ^ 3) (1 / 10000) ∧
    1 / 10000 ≤ max (norm ⟨Real.sqrt, Real.sin⟩ s.r ^ 3) (1 / 10000) ∧
    0 < max (norm ⟨Real.sqrt, Real.sin⟩ s.r ^ 3) (1 / 10000) ∧
    fuerza ⟨Real.sqrt, Real.sin⟩ s escena p t
        = s.r.mul (-p.k / max (norm ⟨Real.sqrt, Real.sin⟩ s.r ^ 3) (1 / 10000)) ∧
    norm ⟨Real.sqrt, Real.sin⟩ (fuerza ⟨Real.sqrt, Real.sin⟩ s escena p t) ^ 3
        ≤ 10 ^ 8 * |p.k| ^ 3 ∧
    norm ⟨Real.sqrt, Real.sin⟩ (fuerza ⟨Real.sqrt, Real.sin⟩ s escena p t)
        ≤ |p.k| * (1 / 10000 : ℝ) ^ (-(2 / 3) : ℝ) := by
  obtain ⟨hF, hcube⟩ := fuerza_inversa_cuadrado Real.sin s escena p t hesc
  have hge : (1 : ℝ) / 10000 ≤ max (norm ⟨Real.sqrt, Real.sin⟩ s.r ^ 3) (1 / 10000) :=
    le_max_right _ _
  refine ⟨by rw [norm2_mul_sqrt Real.sin], hge,
    lt_of_lt_of_le (by norm_num) hge, hF, hcube, ?_⟩
  have hc0 : 0 ≤ (1 / 10000 : ℝ) ^ (-(2 / 3) : ℝ) := Real.rpow_nonneg (by norm_num) _
  apply le_of_pow_le_pow_left₀ (n := 3) (by norm_num) (mul_nonneg (abs_nonneg _) hc0)
  rw [mul_pow, cubo_cota_eps, mul_comm]
  exact hcube

/-- Witness for C14: the particle at the origin in the `InversaCuadrado` scene with the
default parameters (`k = 2`). -/
theorem C14_guarda_inversa_cuadrado_witness :
    fuerza ⟨Real.sqrt, Real.sin⟩ (⟨⟨0, 0⟩, ⟨1, 0⟩⟩ : Estado ℝ) .InversaCuadrado
        Parametros.porDefecto 0
      = (⟨0, 0⟩ : Vec2 ℝ).mul (-(Parametros.porDefecto : Parametros ℝ).k
          / max (norm ⟨Real.sqrt, Real.sin⟩ (⟨0, 0⟩ : Vec2 ℝ) ^ 3) (1 / 10000)) ∧
    norm ⟨Real.sqrt, Real.sin⟩ (fuerza ⟨Real.sqrt, Real.sin⟩ (⟨⟨0, 0⟩, ⟨1, 0⟩⟩ : Estado ℝ)
        .InversaCuadrado Parametros.porDefecto 0) ^ 3
      ≤ 10 ^ 8 * |(Parametros.porDefecto : Parametros ℝ).k| ^ 3 :=
  have h := C14_guarda_inversa_cuadrado (⟨⟨0, 0⟩, ⟨1, 0⟩⟩ : Estado ℝ) .InversaCuadrado
    Parametros.porDefecto 0 (Or.inl rfl)
  ⟨h.2.2.2.1, h.2.2.2.2.1⟩

end Goldstein

namespace Goldstein

/-! ## Central forces and uniform gravity -/

/-- C15 (semi-implicit Euler conserves angular momentum).  In the scenes
`InversaCuadrado`, `NoetherRotacionAreal` and `OsciladorRigidezTiempo`, for every state,
simulation time, step size and parameter set with `m > 0`, one call of
`paso_euler_semimplicito` leaves `Lz = m·(x·vy - y·vx)` unchanged. -/
theorem C15_euler_conserva_Lz {K : Type} [LinearOrderedField K] (cm : CMath K)
    (sim : Simulacion K)
    (hesc : sim.escena = .InversaCuadrado ∨ sim.escena = .NoetherRotacionAreal ∨
      sim.escena = .OsciladorRigidezTiempo)
    (_hm : 0 < sim.p.m) :
    momento_angular (paso_euler_semimplicito cm sim) = momento_angular sim := by
  rcases hesc with h | h | h
  · simp only [momento_angular, paso_euler_semimplicito, h, fuerza, Vec2.add, Vec2.mul,
      Vec2.div, if_neg (show Escena.InversaCuadrado ≠ Escena.RestriccionCirculo by decide)]
    ring
  · simp only [momento_angular, paso_euler_semimplicito, h, fuerza, Vec2.add, Vec2.mul,
      Vec2.div,
      if_neg (show Escena.NoetherRotacionAreal ≠ Escena.RestriccionCirculo by decide)]
    ring
  · simp only [momento_angular, paso_euler_semimplicito, h, fuerza, Vec2.add, Vec2.mul,
      Vec2.div,
      if_neg (show Escena.OsciladorRigidezTiempo ≠ Escena.RestriccionCirculo by decide)]
    ring

/-- Witness for C15: the state right after key `4` on the initial simulation, where
`Lz = -22/25`. -/
theorem C15_euler_conserva_Lz_witness :
    (aplicar_cambios_por_tecla (simInicial : Simulacion ℝ) 52).escena = .InversaCuadrado ∧
    momento_angular (paso_euler_semimplicito ⟨Real.sqrt, Real.sin⟩
      (aplicar_cambios_por_tecla (simInicial : Simulacion ℝ) 52))
      = momento_angular (aplicar_cambios_por_tecla (simInicial : Simulacion ℝ) 52) :=
  ⟨rfl, C15_euler_conserva_Lz ⟨Real.sqrt, Real.sin⟩
    (aplicar_cambios_por_tecla (simInicial : Simulacion ℝ) 52) (Or.inl rfl)
    (show (0 : ℝ) < 1 by norm_num)⟩

/-- Under uniform gravity the derivative function is `(v, (0, -g))`. -/
theorem derivadas_traslacion {K : Type} [LinearOrderedField K] (cm : CMath K)
    (s : Estado K) (p : Parametros K) (t : K) (hm : p.m ≠ 0) :
    derivadas cm s .NoetherTraslacionPx p t = ⟨s.v, ⟨0, -p.g⟩⟩ := by
  simp only [derivadas, fuerza, Vec2.div, zero_div, zero_add]
  congr 2
  field_simp
  ring

/-- C16 (RK4 is exact for uniform gravity).  In the `NoetherTraslacionPx` scene with
`m > 0`, for every state `(r, v)` and step `h = dt`, one call of `paso_rk4` gives
`v' = v + h·(0, -g)`, `r' = r + h·v + ½·h²·(0, -g)` and the cached acceleration `(0, -g)`. -/
theorem C16_rk4_gravedad_exacto {K : Type} [LinearOrderedField K] (cm : CMath K)
    (sim : Simulacion K) (hesc : sim.escena = .NoetherTraslacionPx) (hm : 0 < sim.p.m) :
    (paso_rk4 cm sim).s.v = sim.s.v.add ((⟨0, -sim.p.g⟩ : Vec2 K).mul sim.dt) ∧
    (paso_rk4 cm sim).s.r = (sim.s.r.add (sim.s.v.mul sim.dt)).add
        ((⟨0, -sim.p.g⟩ : Vec2 K).mul (1 / 2 * sim.dt ^ 2)) ∧
    (paso_rk4 cm sim).a = ⟨0, -sim.p.g⟩ := by
  simp only [paso_rk4, hesc, derivadas_traslacion cm _ _ _ hm.ne',
    if_neg (show Escena.NoetherTraslacionPx ≠ Escena.RestriccionCirculo by decide)]
  refine ⟨?_, ?_, ?_⟩
  · simp only [suma, escala, Vec2.add, Vec2.mul]
    congr 1 <;> ring
  · simp only [suma, escala, Vec2.add, Vec2.mul]
    congr 1 <;> ring
  · have hm' : sim.p.m ≠ 0 := hm.ne'
    simp only [fuerza, Vec2.div, zero_div, zero_add]
    congr 1
    field_simp
    ring

/-- Witness for C16: the state right after key `8` on the initial simulation
(`g = 3/2`, `dt = 1/120`). -/
theorem C16_rk4_gravedad_exacto_witness :
    (aplicar_cambios_por_tecla (simInicial : Simulacion ℝ) 56).escena
      = .NoetherTraslacionPx ∧
    (paso_rk4 ⟨Real.sqrt, Real.sin⟩
        (aplicar_cambios_por_tecla (simInicial : Simulacion ℝ) 56)).a
      = ⟨0, -(aplicar_cambios_por_tecla (simInicial : Simulacion ℝ) 56).p.g⟩ ∧
    (paso_rk4 ⟨Real.sqrt, Real.sin⟩
        (aplicar_cambios_por_tecla (simInicial : Simulacion ℝ) 56)).s.v
      = (aplicar_cambios_por_tecla (simInicial : Simulacion ℝ) 56).s.v.add
          ((⟨0, -(aplicar_cambios_por_tecla (simInicial : Simulacion ℝ) 56).p.g⟩ : Vec2 ℝ).mul
            (aplicar_cambios_por_tecla (simInicial : Simulacion ℝ) 56).dt) :=
  have h := C16_rk4_gravedad_exacto ⟨Real.sqrt, Real.sin⟩
    (aplicar_cambios_por_tecla (simInicial : Simulacion ℝ) 56) rfl
    (show (0 : ℝ) < 1 by norm_num)
  ⟨rfl, h.2.2, h.1⟩

end Goldstein

namespace Goldstein

/-- C17 (the circle projection is idempotent).  For every state and every
`radio ≥ 1e-6`, applying `aplicar_restriccion_circulo` twice gives the same position and
velocity as applying it once, also when the first application takes the degenerate branch
`|r| < 1e-6`. -/
theorem C17_proyeccion_idempotente (s : Estado ℝ) (p : Parametros ℝ)
    (hr : 1 / 1000000 ≤ p.radio) :
    aplicar_restriccion_circulo ⟨Real.sqrt, Real.sin⟩
        (aplicar_restriccion_circulo ⟨Real.sqrt, Real.sin⟩ s p) p
      = aplicar_restriccion_circulo ⟨Real.sqrt, Real.sin⟩ s p := by
  have hpos : 0 < p.radio := lt_of_lt_of_le (by norm_num) hr
  have hn := norm_aplicar_restriccion_circulo Real.sin s p hpos
  have hdot := dot_aplicar_restriccion_circulo Real.sin s p
  generalize aplicar_restriccion_circulo ⟨Real.sqrt, Real.sin⟩ s p = s1 at hn hdot
  obtain ⟨⟨x, y⟩, ⟨vx, vy⟩⟩ := s1
  unfold aplicar_restriccion_circulo
  simp only [hn, if_neg (not_lt.mpr hr)]
  simp only [dot] at hdot
  have hR : p.radio ≠ 0 := hpos.ne'
  have hd : vx * (x / p.radio) + vy * (y / p.radio) = 0 := by
    field_simp
    exact hdot
  simp only [dot, Vec2.div, Vec2.mul, Vec2.sub, hd, mul_zero, sub_zero]
  congr 2 <;> field_simp

/-- Witness for C17: the degenerate state `r = (0, 0)` with the default parameters
(`radio = 5/4`). -/
theorem C17_proyeccion_idempotente_witness :
    (1 : ℝ) / 1000000 ≤ (Parametros.porDefecto : Parametros ℝ).radio ∧
    aplicar_restriccion_circulo ⟨Real.sqrt, Real.sin⟩
        (aplicar_restriccion_circulo ⟨Real.sqrt, Real.sin⟩
          (⟨⟨0, 0⟩, ⟨1, 0⟩⟩ : Estado ℝ) Parametros.porDefecto) Parametros.porDefecto
      = aplicar_restriccion_circulo ⟨Real.sqrt, Real.sin⟩
          (⟨⟨0, 0⟩, ⟨1, 0⟩⟩ : Estado ℝ) Parametros.porDefecto :=
  have hr : (1 : ℝ) / 1000000 ≤ (Parametros.porDefecto : Parametros ℝ).radio := by
    show (1 : ℝ) / 1000000 ≤ 5 / 4
    norm_num
  ⟨hr, C17_proyeccion_idempotente ⟨⟨0, 0⟩, ⟨1, 0⟩⟩ Parametros.porDefecto hr⟩

end Goldstein

namespace Goldstein

/-! ## The same routines in binary32 -/

/-- The exact value of `m · 2^-e`. -/
theorem Flotante.valor_dosALa (m : Int) (e : Nat) (h : e ≤ 149) :
    (Flotante.dosALa m e).valor = (m : ℚ) / 2 ^ e := by
  unfold Flotante.valor Flotante.dosALa
  push_cast
  rw [div_eq_div_iff (by positivity) (by positivity), mul_assoc, ← pow_add]
  congr 2
  omega

/-- Outside `OsciladorRigidezTiempo` the force does not depend on the sine routine. -/
theorem B32.fuerza_sin_seno (sn sn' : Flotante → Flotante) (s : Estado Flotante)
    (escena : Escena) (p : Parametros Flotante) (t : Flotante)
    (h : escena ≠ .OsciladorRigidezTiempo) :
    B32.fuerza sn s escena p t = B32.fuerza sn' s escena p t := by
  cases escena <;> first | rfl | exact absurd rfl h

/-- Outside `OsciladorRigidezTiempo` the Euler step does not depend on the sine routine. -/
theorem B32.paso_euler_sin_seno (sn sn' : Flotante → Flotante) (sim : Simulacion Flotante)
    (h : sim.escena ≠ .OsciladorRigidezTiempo) :
    B32.paso_euler_semimplicito sn sim = B32.paso_euler_semimplicito sn' sim := by
  unfold B32.paso_euler_semimplicito
  rw [B32.fuerza_sin_seno sn sn' _ _ _ _ h]

/-- C11, counterexample (binary32).  For `r = (3, 4)`, `v = (1, 0)` and the default
`radio = 1.25`, `aplicar_restriccion_circulo` computed in binary32 returns
`r' = (0.75, 1)`, `v' = (5368709·2^-23, -1006633·2^-21)`, and `v'·r'` is `-2^-25`, not 0,
both as `dot` computes it and taken exactly; for the reset state `r = (-0.8, 0.6)`,
`v = (1.2, 0.2)` it is `2^-24`. -/
theorem C11_proyeccion_binary32 :
    (B32.aplicar_restriccion_circulo B32.estadoEjemplo B32.parametros).r.x
      = Flotante.dosALa 3 2 ∧
    (B32.aplicar_restriccion_circulo B32.estadoEjemplo B32.parametros).r.y
      = Flotante.dosALa 1 0 ∧
    (B32.aplicar_restriccion_circulo B32.estadoEjemplo B32.parametros).v.x
      = Flotante.dosALa 5368709 23 ∧
    (B32.aplicar_restriccion_circulo B32.estadoEjemplo B32.parametros).v.y
      = Flotante.dosALa (-1006633) 21 ∧
    B32.dot (B32.aplicar_restriccion_circulo B32.estadoEjemplo B32.parametros).v
      (B32.aplicar_restriccion_circulo B32.estadoEjemplo B32.parametros).r
      = Flotante.dosALa (-1) 25 ∧
    B32.dot (B32.aplicar_restriccion_circulo B32.estadoEjemplo B32.parametros).v
      (B32.aplicar_restriccion_circulo B32.estadoEjemplo B32.parametros).r
      ≠ Flotante.de 0 1 ∧
    B32.dot_exacto (B32.aplicar_restriccion_circulo B32.estadoEjemplo B32.parametros).v
      (B32.aplicar_restriccion_circulo B32.estadoEjemplo B32.parametros).r
      = -(1 / 2 ^ 25) ∧
    B32.dot (B32.aplicar_restriccion_circulo B32.simInicial.s B32.parametros).v
      (B32.aplicar_restriccion_circulo B32.simInicial.s B32.parametros).r
      = Flotante.dosALa 1 24 := by
  have hx : (B32.aplicar_restriccion_circulo B32.estadoEjemplo B32.parametros).r.x
      = Flotante.dosALa 3 2 := by decide!
  have hy : (B32.aplicar_restriccion_circulo B32.estadoEjemplo B32.parametros).r.y
      = Flotante.dosALa 1 0 := by decide!
  have hvx : (B32.aplicar_restriccion_circulo B32.estadoEjemplo B32.parametros).v.x
      = Flotante.dosALa 5368709 23 := by decide!
  have hvy : (B32.aplicar_restriccion_circulo B32.estadoEjemplo B32.parametros).v.y
      = Flotante.dosALa (-1006633) 21 := by decide!
  refine ⟨hx, hy, hvx, hvy, by decide!, by decide!, ?_, by decide!⟩
  rw [B32.dot_exacto, hx, hy, hvx, hvy, Flotante.valor_dosALa _ _ (by norm_num),
    Flotante.valor_dosALa _ _ (by norm_num), Flotante.valor_dosALa _ _ (by norm_num),
    Flotante.valor_dosALa _ _ (by norm_num)]
  norm_num

/-- C17, counterexample (binary32).  With the default `radio = 1.25 ≥ 1e-6` and the state
`r = (3, 4)`, `v = (1, 0)`, the first application of `aplicar_restriccion_circulo` leaves
`v.y = -1006633·2^-21` (about `-0.480000019`) and the second leaves
`v.y = -16106127·2^-25` (about `-0.479999989`): applying twice is not applying once.  The
same holds for the reset state `r = (-0.8, 0.6)`, `v = (1.2, 0.2)`. -/
theorem C17_proyeccion_binary32 :
    ¬ (B32.parametros.radio < Flotante.de 1 1000000) ∧
    (B32.aplicar_restriccion_circulo B32.estadoEjemplo B32.parametros).v.y
      = Flotante.dosALa (-1006633) 21 ∧
    (B32.aplicar_restriccion_circulo
      (B32.aplicar_restriccion_circulo B32.estadoEjemplo B32.parametros) B32.parametros).v.y
      = Flotante.dosALa (-16106127) 25 ∧
    B32.aplicar_restriccion_circulo
      (B32.aplicar_restriccion_circulo B32.estadoEjemplo B32.parametros) B32.parametros
      ≠ B32.aplicar_restriccion_circulo B32.estadoEjemplo B32.parametros ∧
    B32.aplicar_restriccion_circulo
      (B32.aplicar_restriccion_circulo B32.simInicial.s B32.parametros) B32.parametros
      ≠ B32.aplicar_restriccion_circulo B32.simInicial.s B32.parametros := by
  refine ⟨by decide!, by decide!, by decide!, ?_, ?_⟩
  · intro h
    have h2 := congrArg (fun e : Estado Flotante => e.v.y) h
    exact absurd h2 (by decide!)
  · intro h
    have h2 := congrArg (fun e : Estado Flotante => e.v.y) h
    exact absurd h2 (by decide!)

end Goldstein

namespace Goldstein

/-- C15, counterexample (binary32).  In the `InversaCuadrado` scene as key `4` starts it
(`m = 1 > 0`, `k = 2`, `dt = 1/120` as a `float`), the first call of
`paso_euler_semimplicito` leaves `r = (-13252137·2^-24, 5046447·2^-23)`,
`v = (5089089·2^-22, 3187671·2^-24)` with `Lz = -14763951·2^-24`; the next call, from that
state, leaves `Lz = -922747·2^-20`.  The two differ by `2^-24`, both as the program
computes `Lz` and with `m·(x·vy - y·vx)` taken exactly on the binary32 states. -/
theorem C15_euler_binary32 :
    B32.simInversa.escena = .InversaCuadrado ∧
    Flotante.de 0 1 < B32.simInversa.p.m ∧
    (B32.paso_euler_semimplicito B32.seno_no_usado B32.simInversa).s.r.x
      = Flotante.dosALa (-13252137) 24 ∧
    (B32.paso_euler_semimplicito B32.seno_no_usado B32.simInversa).s.r.y
      = Flotante.dosALa 5046447 23 ∧
    (B32.paso_euler_semimplicito B32.seno_no_usado B32.simInversa).s.v.x
      = Flotante.dosALa 5089089 22 ∧
    (B32.paso_euler_semimplicito B32.seno_no_usado B32.simInversa).s.v.y
      = Flotante.dosALa 3187671 24 ∧
    B32.momento_angular (B32.paso_euler_semimplicito B32.seno_no_usado B32.simInversa)
      = Flotante.dosALa (-14763951) 24 ∧
    B32.momento_angular (B32.paso_euler_semimplicito B32.seno_no_usado
        (B32.paso_euler_semimplicito B32.seno_no_usado B32.simInversa))
      = Flotante.dosALa (-922747) 20 ∧
    B32.momento_angular (B32.paso_euler_semimplicito B32.seno_no_usado
        (B32.paso_euler_semimplicito B32.seno_no_usado B32.simInversa))
      ≠ B32.momento_angular (B32.paso_euler_semimplicito B32.seno_no_usado B32.simInversa) ∧
    B32.momento_exacto (B32.paso_euler_semimplicito B32.seno_no_usado
        (B32.paso_euler_semimplicito B32.seno_no_usado B32.simInversa))
      ≠ B32.momento_exacto (B32.paso_euler_semimplicito B32.seno_no_usado B32.simInversa) := by
  have hx : (B32.paso_euler_semimplicito B32.seno_no_usado B32.simInversa).s.r.x
      = Flotante.dosALa (-13252137) 24 := by decide!
  have hy : (B32.paso_euler_semimplicito B32.seno_no_usado B32.simInversa).s.r.y
      = Flotante.dosALa 5046447 23 := by decide!
  have hvx : (B32.paso_euler_semimplicito B32.seno_no_usado B32.simInversa).s.v.x
      = Flotante.dosALa 5089089 22 := by decide!
  have hvy : (B32.paso_euler_semimplicito B32.seno_no_usado B32.simInversa).s.v.y
      = Flotante.dosALa 3187671 24 := by decide!
  have hm : (B32.paso_euler_semimplicito B32.seno_no_usado B32.simInversa).p.m
      = Flotante.dosALa 1 0 := by decide!
  have hx2 : (B32.paso_euler_semimplicito B32.seno_no_usado
      (B32.paso_euler_semimplicito B32.seno_no_usado B32.simInversa)).s.r.x
      = Flotante.dosALa (-3270155) 22 := by decide!
  have hy2 : (B32.paso_euler_semimplicito B32.seno_no_usado
      (B32.paso_euler_semimplicito B32.seno_no_usado B32.simInversa)).s.r.y
      = Flotante.dosALa 5059013 23 := by decide!
  have hvx2 : (B32.paso_euler_semimplicito B32.seno_no_usado
      (B32.paso_euler_semimplicito B32.seno_no_usado B32.simInversa)).s.v.x
      = Flotante.dosALa 10291003 23 := by decide!
  have hvy2 : (B32.paso_euler_semimplicito B32.seno_no_usado
      (B32.paso_euler_semimplicito B32.seno_no_usado B32.simInversa)).s.v.y
      = Flotante.dosALa 6031631 25 := by decide!
  have hm2 : (B32.paso_euler_semimplicito B32.seno_no_usado
      (B32.paso_euler_semimplicito B32.seno_no_usado B32.simInversa)).p.m
      = Flotante.dosALa 1 0 := by decide!
  refine ⟨rfl, by decide!, hx, hy, hvx, hvy, by decide!, by decide!, by decide!, ?_⟩
  rw [B32.momento_exacto, B32.momento_exacto, hx, hy, hvx, hvy, hm, hx2, hy2, hvx2, hvy2, hm2]
  simp only [Flotante.valor_dosALa _ _ (show 0 ≤ 149 by norm_num),
    Flotante.valor_dosALa _ _ (show 20 ≤ 149 by norm_num),
    Flotante.valor_dosALa _ _ (show 22 ≤ 149 by norm_num),
    Flotante.valor_dosALa _ _ (show 23 ≤ 149 by norm_num),
    Flotante.valor_dosALa _ _ (show 24 ≤ 149 by norm_num),
    Flotante.valor_dosALa _ _ (show 25 ≤ 149 by norm_num)]
  norm_num

/-- C3, counterexample (binary32).  The undamped oscillator with the reset state
`r = (-0.8, 0.6)`, `v = (1.2, 0.2)`, the default `m = 1`, `k = 2` and the fixed step
`h = 2^-23` (so `h·sqrt(k/m) < 2`): the energy the program computes is
`E_0 = 7298089·2^-22` before and `E_5 = 7298091·2^-22` after five calls of
`paso_euler_semimplicito`, and `E_5` exceeds `(2 + h·ω)/(2 - h·ω)·E_0`, `ω = sqrt 2`; so
does `½·m·|v|² + ½·k·|r|²` taken exactly on the binary32 states. -/
theorem C3_energia_binary32 :
    B32.simOscilador.escena = .Oscilador ∧
    B32.simOscilador.p.amortiguamiento = Flotante.de 0 1 ∧
    B32.simOscilador.p.m.valor = 1 ∧
    B32.simOscilador.p.k.valor = 2 ∧
    B32.simOscilador.dt.valor = 1 / 2 ^ 23 ∧
    (1 / 2 ^ 23 : ℝ) * Real.sqrt (2 / 1) < 2 ∧
    (B32.energia_total B32.seno_no_usado B32.simOscilador).valor = 7298089 / 2 ^ 22 ∧
    (B32.energia_total B32.seno_no_usado
      ((B32.paso_euler_semimplicito B32.seno_no_usado)^[5] B32.simOscilador)).valor
      = 7298091 / 2 ^ 22 ∧
    ¬ ((7298091 / 2 ^ 22 : ℝ)
        ≤ (2 + 1 / 2 ^ 23 * Real.sqrt (2 / 1)) / (2 - 1 / 2 ^ 23 * Real.sqrt (2 / 1))
          * (7298089 / 2 ^ 22)) ∧
    ¬ (((B32.energia_exacta
          ((B32.paso_euler_semimplicito B32.seno_no_usado)^[5] B32.simOscilador) : ℚ) : ℝ)
        ≤ (2 + 1 / 2 ^ 23 * Real.sqrt (2 / 1)) / (2 - 1 / 2 ^ 23 * Real.sqrt (2 / 1))
          * ((B32.energia_exacta B32.simOscilador : ℚ) : ℝ)) := by
  have hs : Real.sqrt (2 / 1) ≤ 3 / 2 := by
    rw [Real.sqrt_le_iff]; norm_num
  have hs0 : 0 ≤ Real.sqrt (2 / 1) := Real.sqrt_nonneg _
  have hpos : (0 : ℝ) < 2 - 1 / 2 ^ 23 * Real.sqrt (2 / 1) := by
    have : (1 / 2 ^ 23 : ℝ) * Real.sqrt (2 / 1) ≤ 1 / 2 ^ 23 * (3 / 2) :=
      mul_le_mul_of_nonneg_left hs (by positivity)
    norm_num at this ⊢
    linarith
  have hm : B32.simOscilador.p.m = Flotante.dosALa 1 0 := by decide!
  have hk : B32.simOscilador.p.k = Flotante.dosALa 2 0 := by decide!
  have hdt : B32.simOscilador.dt = Flotante.dosALa 1 23 := rfl
  have hE0 : B32.energia_total B32.seno_no_usado B32.simOscilador
      = Flotante.dosALa 7298089 22 := by decide!
  have hE5 : B32.energia_total B32.seno_no_usado
      ((B32.paso_euler_semimplicito B32.seno_no_usado)^[5] B32.simOscilador)
      = Flotante.dosALa 7298091 22 := by decide!
  have hx0 : B32.simOscilador.s.r.x = Flotante.dosALa (-13421773) 24 := by decide!
  have hy0 : B32.simOscilador.s.r.y = Flotante.dosALa 5033165 23 := by decide!
  have hvx0 : B32.simOscilador.s.v.x = Flotante.dosALa 5033165 22 := by decide!
  have hvy0 : B32.simOscilador.s.v.y = Flotante.dosALa 13421773 26 := by decide!
  have hx5 : ((B32.paso_euler_semimplicito B32.seno_no_usado)^[5] B32.simOscilador).s.r.x
      = Flotante.dosALa (-13421763) 24 := by decide!
  have hy5 : ((B32.paso_euler_semimplicito B32.seno_no_usado)^[5] B32.simOscilador).s.r.y
      = Flotante.dosALa 5033165 23 := by decide!
  have hvx5 : ((B32.paso_euler_semimplicito B32.seno_no_usado)^[5] B32.simOscilador).s.v.x
      = Flotante.dosALa 2516585 21 := by decide!
  have hvy5 : ((B32.paso_euler_semimplicito B32.seno_no_usado)^[5] B32.simOscilador).s.v.y
      = Flotante.dosALa 13421723 26 := by decide!
  have hm5 : ((B32.paso_euler_semimplicito B32.seno_no_usado)^[5] B32.simOscilador).p.m
      = Flotante.dosALa 1 0 := by decide!
  have hk5 : ((B32.paso_euler_semimplicito B32.seno_no_usado)^[5] B32.simOscilador).p.k
      = Flotante.dosALa 2 0 := by decide!
  refine ⟨rfl, rfl, ?_, ?_, ?_, by linarith, ?_, ?_, ?_, ?_⟩
  · rw [hm, Flotante.valor_dosALa _ _ (by norm_num)]; norm_num
  · rw [hk, Flotante.valor_dosALa _ _ (by norm_num)]; norm_num
  · rw [hdt, Flotante.valor_dosALa _ _ (by norm_num)]; norm_num
  · rw [hE0, Flotante.valor_dosALa _ _ (by norm_num)]; norm_num
  · rw [hE5, Flotante.valor_dosALa _ _ (by norm_num)]; norm_num
  · intro hle
    rw [div_mul_eq_mul_div, le_div_iff₀ hpos] at hle
    norm_num at hle
    linarith
  · intro hle
    rw [div_mul_eq_mul_div, le_div_iff₀ hpos] at hle
    simp only [B32.energia_exacta, B32.dot_exacto, hx0, hy0, hvx0, hvy0, hm, hk, hx5, hy5,
      hvx5, hvy5, hm5, hk5,
      Flotante.valor_dosALa _ _ (show 0 ≤ 149 by norm_num),
      Flotante.valor_dosALa _ _ (show 21 ≤ 149 by norm_num),
      Flotante.valor_dosALa _ _ (show 22 ≤ 149 by norm_num),
      Flotante.valor_dosALa _ _ (show 23 ≤ 149 by norm_num),
      Flotante.valor_dosALa _ _ (show 24 ≤ 149 by norm_num),
      Flotante.valor_dosALa _ _ (show 26 ≤ 149 by norm_num)] at hle
    push_cast at hle
    norm_num at hle
    linarith

end Goldstein
